import Mathlib

/-!
# tencentcloud-thanos-querier: the store adapter (`pkg/store.go`)

A shallow embedding of the query translation, the label set builder, the chunk
construction and the label listing of `pkg/store.go`, with theorems about them.

Conventions of the embedding.

* A Go `string` is a Lean `String`; `==` is equality and `<` the lexicographic
  order (byte order and code-point order agree on UTF-8 text).
* A Go `map[string]V` is a `GoMap V`: key/value pairs with pairwise distinct
  keys.  The order of `entries` stands for the order in which one `range` loop
  visits the map; Go leaves that order unspecified, so statements quantify over
  every order.
* The SDK structs (`monitor.Dimension`, `monitor.DataPoint`, ...) hold
  pointers; they are taken to be non-nil and are represented by their targets.
* `sort.Slice` is library code.  It is represented by its contract
  (`SortSlice`): the result is a permutation of the input in which no element
  is `less` than an earlier one.  It is not stable.
* An `int64` is an `Int`; a product is reduced by `wrapInt64`.
* `time.Unix(sec, 0).Format(time.RFC3339)` is library code.  It is represented by
  `formatRFC3339`, with the offset of the process's local zone as an argument.
* The XOR chunk of package `chunkenc` is represented by the samples appended to
  it and a function `bytes` giving its encoding.  The package is not among the
  sources; `xorChunkBytes` and `xorChunkDecode` model its encoding and decoding
  from the specification.
* Logging has no effect on results and is left out.
-/

namespace TencentStore

/-! ## Go maps -/

/-- A Go `map[string]V`.  `entries` lists the pairs in the order a `range`
loop visits them. -/
structure GoMap (V : Type) where
  entries : List (String × V)
  nodupKeys : (entries.map Prod.fst).Nodup

namespace GoMap

/-- The empty map, `map[string]V{}`. -/
def empty {V : Type} : GoMap V := ⟨[], List.nodup_nil⟩

/-- The comma-ok lookup `v, ok := m[k]`. -/
def get? {V : Type} (m : GoMap V) (k : String) : Option V :=
  (m.entries.find? (fun e => decide (e.1 = k))).map Prod.snd

/-- The key test `_, ok := m[k]`. -/
def contains {V : Type} (m : GoMap V) (k : String) : Bool :=
  (m.get? k).isSome

/-- The plain index expression `m[k]` of a `map[string]string`: the zero value
`""` when the key is absent. -/
def index (m : GoMap String) (k : String) : String :=
  (m.get? k).getD ""

/-- The assignment `m[k] = v`: the pair for `k` is replaced or added.  Where
the new pair sits among `entries` carries no meaning. -/
def insert {V : Type} (m : GoMap V) (k : String) (v : V) : GoMap V :=
  ⟨(k, v) :: m.entries.filter (fun e => !decide (e.1 = k)), by
    rw [List.map_cons, List.nodup_cons]
    constructor
    · intro h
      obtain ⟨e, he, hk⟩ := List.mem_map.1 h
      have := (List.mem_filter.1 he).2
      simp [hk] at this
    · exact (List.Sublist.map _ (List.filter_sublist _)).nodup m.nodupKeys⟩

/-- A map `visit` holds the pairs of `m`, visited in some order. -/
def Visits {V : Type} (visit m : GoMap V) : Prop := visit.entries.Perm m.entries

end GoMap

/-! ## Labels and the label set builder -/

/-- `storepb.Label`. -/
structure Label where
  Name : String
  Value : String
deriving DecidableEq, Repr

/-- `monitor.Dimension` (both pointer fields dereferenced). -/
structure Dimension where
  Name : String
  Value : String
deriving DecidableEq, Repr

/-- The comparison handed to `sort.Slice` in `extendLset`:
`lset[i].Name < lset[j].Name`. -/
def lessByName (a b : Label) : Prop := a.Name < b.Name

instance (a b : Label) : Decidable (lessByName a b) :=
  decidable_of_iff (a.Name.toList < b.Name.toList) String.lt_iff_toList_lt.symm

/-- The contract of `sort.Slice(lset, less)` with `less = lessByName`: some
permutation of the input in which no later element is less than an earlier
one. -/
structure SortSlice where
  sort : List Label → List Label
  perm : ∀ l, (sort l).Perm l
  sorted : ∀ l, (sort l).Pairwise (fun a b => ¬ lessByName b a)

/-- Insertion of one label in front of the first element it is less than. -/
def insertByName (x : Label) : List Label → List Label
  | [] => [x]
  | y :: ys => if lessByName x y then x :: y :: ys else y :: insertByName x ys

/-- Insertion sort by name. -/
def insertionSortByName : List Label → List Label
  | [] => []
  | x :: xs => insertByName x (insertionSortByName xs)

/-- `extendLset`: append one label per entry of `extend`, then sort by name. -/
def extendLset (S : SortSlice) (lset : List Label) (extend : GoMap String) : List Label :=
  S.sort (lset ++ extend.entries.map (fun kv => Label.mk kv.1 kv.2))

/-- `translateAndExtendLabels`: keep each dimension unless `extend[name] != ""`,
then extend with the external labels. -/
def translateAndExtendLabels (S : SortSlice) (m : List Dimension) (extend : GoMap String) :
    List Label :=
  extendLset S
    ((m.filter (fun l => decide (extend.index l.Name = ""))).map
      (fun l => Label.mk l.Name l.Value))
    extend

/-- The dimensions that survive the guard `extend[*l.Name] != ""`. -/
def keptDimensions (m : List Dimension) (extend : GoMap String) : List Label :=
  (m.filter (fun l => decide (extend.index l.Name = ""))).map (fun l => Label.mk l.Name l.Value)

/-- The labels appended by `extendLset`, in visiting order. -/
def externalLabels (extend : GoMap String) : List Label :=
  extend.entries.map (fun kv => Label.mk kv.1 kv.2)

/-! ## Matchers and the dimension filters -/

/-- `storepb.LabelMatcher_Type`. -/
inductive LabelMatcherType where
  | EQ
  | NEQ
  | RE
  | NRE
deriving DecidableEq, Repr

/-- `storepb.LabelMatcher`. -/
structure LabelMatcher where
  Type_ : LabelMatcherType
  Name : String
  Value : String
deriving DecidableEq, Repr

/-- `monitor.Instance`. -/
structure Instance where
  Dimensions : List Dimension
deriving DecidableEq, Repr

/-- The closure `makeDimension` of `makeMonitorInstance`. -/
def makeDimension (n v : String) : List Dimension := [Dimension.mk n v]

/-- `makeMonitorInstance`: one instance per matcher of the map, in visiting
order, skipping the matchers named `region` and `__name__`. -/
def makeMonitorInstance (matchers : GoMap LabelMatcher) : List Instance :=
  matchers.entries.filterMap (fun e =>
    if e.2.Name = "region" ∨ e.2.Name = "__name__" then none
    else some (Instance.mk (makeDimension e.2.Name e.2.Value)))

/-- `labelMatcherToMap`: the equality matchers keyed by name, a later matcher
overwriting an earlier one of the same name. -/
def labelMatcherToMap (matchers : List LabelMatcher) : GoMap LabelMatcher :=
  matchers.foldl
    (fun r a => if a.Type_ = LabelMatcherType.EQ then r.insert a.Name a else r)
    GoMap.empty

/-- `safeGetValue`. -/
def safeGetValue (m : GoMap LabelMatcher) (label : String) : String :=
  match m.get? label with
  | some a => a.Value
  | none => ""

/-- The last equality matcher named `n` of a matcher list, if there is one. -/
def lastEqMatcher (ms : List LabelMatcher) (n : String) : Option LabelMatcher :=
  (ms.filter (fun a => decide (a.Type_ = LabelMatcherType.EQ ∧ a.Name = n))).getLast?

/-- The names of the equality matchers other than `region` and `__name__`, each
once. -/
def dimensionFilterNames (ms : List LabelMatcher) : List String :=
  (((ms.filter (fun a => decide (a.Type_ = LabelMatcherType.EQ))).map
    LabelMatcher.Name).dedup).filter
      (fun n => !decide (n = "region" ∨ n = "__name__"))

/-- The dimension filters as the specification words them: one single-dimension
filter `{name, value}` for each equality matcher name other than `region` and
`__name__`, with the value of the last equality matcher of that name, sorted
ascending by name. -/
def specDimensionFilters (ms : List LabelMatcher) : List Instance :=
  (insertionSortByName ((dimensionFilterNames ms).map (fun n =>
      Label.mk n (((lastEqMatcher ms n).map LabelMatcher.Value).getD "")))).map
    (fun l => Instance.mk [Dimension.mk l.Name l.Value])

/-- The filter that `specDimensionFilters` holds for the name `n`. -/
def specFilterFor (ms : List LabelMatcher) (n : String) : Instance :=
  Instance.mk [Dimension.mk n (((lastEqMatcher ms n).map LabelMatcher.Value).getD "")]

/-! ## Machine integers and time -/

/-- The value an `int64` holds after a computation whose exact result is `x`
(two's complement wrap-around). -/
def wrapInt64 (x : Int) : Int := (x + 2 ^ 63) % 2 ^ 64 - 2 ^ 63

/-- The `int64` product `a * b`. -/
def mulInt64 (a b : Int) : Int := wrapInt64 (a * b)

/-- `appendInt` of package `time`: the decimal digits of `x`, zero-padded to
`width`, after a minus sign when `x` is negative. -/
def appendInt (x : Int) (width : Nat) : String :=
  let ds := Nat.toDigits 10 x.natAbs
  (if x < 0 then "-" else "") ++ String.mk (List.replicate (width - ds.length) (Char.ofNat 48) ++ ds)

/-- The civil date (year, month, day) of the day `z` days after 1970-01-01 in
the proleptic Gregorian calendar. -/
def civilFromDays (z : Int) : Int × Int × Int :=
  let z := z + 719468
  let era := z / 146097
  let doe := z % 146097
  let yoe := (doe - doe / 1460 + doe / 36524 - doe / 146096) / 365
  let doy := doe - (365 * yoe + yoe / 4 - yoe / 100)
  let mp := (5 * doy + 2) / 153
  let d := doy - (153 * mp + 2) / 5 + 1
  let m := if mp < 10 then mp + 3 else mp - 9
  (yoe + era * 400 + (if m ≤ 2 then 1 else 0), m, d)

/-- The zone suffix of layout element `Z07:00`: `Z` for offset zero, else the
sign and `hh:mm` of the offset, which is given in seconds east of UTC. -/
def formatZone (offset : Int) : String :=
  if offset = 0 then "Z"
  else
    let zone := Int.tdiv offset 60
    (if zone < 0 then "-" else "+") ++ appendInt (zone.natAbs / 60) 2 ++ ":" ++
      appendInt (zone.natAbs % 60) 2

/-- What `Time.Format(time.RFC3339)` returns, layout `2006-01-02T15:04:05Z07:00`, for
the instant `unixSec` seconds after the Unix epoch shown in a zone that is
`offset` seconds east of UTC. -/
def formatRFC3339 (offset : Int) (unixSec : Int) : String :=
  let loc := unixSec + offset
  let days := loc / 86400
  let rem := loc % 86400
  let ymd := civilFromDays days
  appendInt ymd.1 4 ++ "-" ++ appendInt ymd.2.1 2 ++ "-" ++ appendInt ymd.2.2 2 ++ "T" ++
    appendInt (rem / 3600) 2 ++ ":" ++ appendInt (rem % 3600 / 60) 2 ++ ":" ++
    appendInt (rem % 60) 2 ++ formatZone offset

/-- The expression `time.Unix(sec, 0).Format(time.RFC3339)`.  `time.Unix` returns a
`Time` in the location `time.Local`; `localOffset` gives the offset of that
location, in seconds east of UTC, in force at an instant. -/
def unixFormatRFC3339 (localOffset : Int → Int) (sec : Int) : String :=
  formatRFC3339 (localOffset sec) sec

/-! ## Chunks -/

/-- A `float64`, held as its IEEE 754 bit pattern. -/
structure Float64 where
  bits : Nat
deriving DecidableEq, Repr

/-- One sample handed to the chunk appender: a timestamp in milliseconds and a
value. -/
abbrev Sample := Int × Float64

/-- Modelled from the spec: the SDK struct `monitor.DataPoint` is not among the
sources.  Following the RawSeries of the specification it holds the dimensions,
the timestamps in seconds (`int64`) and the values (`float64`), `Values[i]`
belonging to `Timestamps[i]`. -/
structure DataPoint where
  Dimensions : List Dimension
  Timestamps : List Int
  Values : List Float64
deriving DecidableEq, Repr

/-- `storepb.Chunk_Encoding`. -/
inductive ChunkEncoding where
  | XOR
deriving DecidableEq, Repr

/-- `storepb.Chunk`. -/
structure Chunk where
  Type_ : ChunkEncoding
  Data : List Nat
deriving DecidableEq, Repr

/-- `storepb.AggrChunk`; of the chunk pointers only `Raw` is ever set here. -/
structure AggrChunk where
  MinTime : Int
  MaxTime : Int
  Raw : Option Chunk
deriving DecidableEq, Repr

/-- A run-time panic of Go. -/
inductive Panic where
  | indexOutOfRange (index length : Nat)
deriving DecidableEq, Repr

/-- The loop `for i, s := range series.Values { a.Append(int64(*series.Timestamps[i])*1000, *s) }`
started at index `i`: the samples appended to the chunk, or the panic of an
index out of range.  The timestamps being `int64`, the conversion `int64(..)`
changes nothing and the product is the `int64` product. -/
def appendSamples (timestamps : List Int) : Nat → List Float64 → List Sample →
    Except Panic (List Sample)
  | _, [], appended => Except.ok appended
  | i, s :: rest, appended =>
    match timestamps.get? i with
    | none => Except.error (Panic.indexOutOfRange i timestamps.length)
    | some t =>
      appendSamples timestamps (i + 1) rest (appended ++ [(mulInt64 t 1000, s)])

/-- `chunkSamples`.  The result is the pair `(chks, err)`, or a panic.
`bytes` stands for the XOR chunk of package `chunkenc`: `bytes l` is what
`c.Bytes()` returns once the samples `l` have been appended to a new chunk, whose
`Appender()` does not fail. -/
def chunkSamples (bytes : List Sample → List Nat) (series : DataPoint) :
    Except Panic (List AggrChunk × Option String) :=
  if series.Values.length = 0 ∨ series.Timestamps.length = 0 then Except.ok ([], none)
  else
    match appendSamples series.Timestamps 0 series.Values [] with
    | Except.error p => Except.error p
    | Except.ok appended =>
      match series.Timestamps.get? 0, series.Timestamps.get? (series.Timestamps.length - 1) with
      | some t0, some tn =>
        Except.ok ([AggrChunk.mk (mulInt64 t0 1000) (mulInt64 tn 1000)
          (some (Chunk.mk ChunkEncoding.XOR (bytes appended)))], none)
      | none, _ => Except.error (Panic.indexOutOfRange 0 series.Timestamps.length)
      | _, none =>
        Except.error (Panic.indexOutOfRange (series.Timestamps.length - 1) series.Timestamps.length)

/-! ## The XOR chunk encoding

The chunk encoder of package `chunkenc` is not among the sources.  It is
modelled from the specification: the first timestamp and value are stored
directly; each later sample is stored as the delta from the previous timestamp
and the XOR of its value's bit pattern against the previous value, both in a
variable-length bit code; the bits are then packed into bytes. -/

/-- The `w` low bits of `n`, most significant first. -/
def natToBits : Nat → Nat → List Bool
  | 0, _ => []
  | w + 1, n => natToBits w (n / 2) ++ [decide (n % 2 = 1)]

/-- The number that a list of bits, most significant first, spells. -/
def bitsToNat (bs : List Bool) : Nat :=
  bs.foldl (fun acc b => 2 * acc + (if b then 1 else 0)) 0

/-- With enough `fuel`, the number of binary digits of `n`. -/
def bitLengthAux : Nat → Nat → Nat
  | 0, _ => 0
  | fuel + 1, n => if n = 0 then 0 else bitLengthAux fuel (n / 2) + 1

/-- The number of binary digits of `n` (zero for `n = 0`). -/
def bitLength (n : Nat) : Nat := bitLengthAux n n

/-- The variable-length code of a natural number: its number of binary digits
in unary (that many one bits, then a zero bit), then the digits.  Zero is the
single bit `0`. -/
def encodeVar (n : Nat) : List Bool :=
  List.replicate (bitLength n) true ++ false :: natToBits (bitLength n) n

/-- Reads a unary number: the count of leading one bits and what follows the
zero bit that ends them. -/
def readUnary : List Bool → Option (Nat × List Bool)
  | [] => none
  | false :: rest => some (0, rest)
  | true :: rest =>
    match readUnary rest with
    | none => none
    | some (k, rest2) => some (k + 1, rest2)

/-- Reads one variable-length code: the number and the bits that follow it. -/
def decodeVar (bs : List Bool) : Option (Nat × List Bool) :=
  match readUnary bs with
  | none => none
  | some (k, rest) =>
    if rest.length < k then none else some (bitsToNat (rest.take k), rest.drop k)

/-- A signed number as a natural number, small magnitudes first:
`0, -1, 1, -2, 2, ...` become `0, 1, 2, 3, 4, ...`. -/
def zigzag (z : Int) : Nat := if 0 ≤ z then (2 * z).toNat else (-2 * z - 1).toNat

/-- The signed number that `zigzag` turned into `n`. -/
def unzigzag (n : Nat) : Int := if n % 2 = 0 then ((n / 2 : Nat) : Int) else -((n / 2 : Nat) : Int) - 1

/-- The bits of the samples after `prev`: for each, the code of the delta from the
previous timestamp, then the code of the XOR of the value's bit pattern against
the previous value. -/
def encodeRest : Sample → List Sample → List Bool
  | _, [] => []
  | prev, cur :: rest =>
    encodeVar (zigzag (cur.1 - prev.1)) ++ encodeVar (cur.2.bits ^^^ prev.2.bits) ++
      encodeRest cur rest

/-- The bits of a chunk: the code of the number of samples, the first timestamp
and the first value in 64 bits each, then the later samples. -/
def xorChunkBits : List Sample → List Bool
  | [] => encodeVar 0
  | first :: rest =>
    encodeVar (rest.length + 1) ++ natToBits 64 (first.1 % 2 ^ 64).toNat ++
      natToBits 64 first.2.bits ++ encodeRest first rest

/-- The first `k` bytes of a bit list, eight bits to a byte. -/
def packBytes : Nat → List Bool → List Nat
  | 0, _ => []
  | k + 1, bs => bitsToNat (bs.take 8) :: packBytes k (bs.drop 8)

/-- A bit list filled up with zero bits to a whole number of bytes, as bytes. -/
def packBits (bs : List Bool) : List Nat :=
  packBytes ((bs.length + 7) / 8) (bs ++ List.replicate ((8 - bs.length % 8) % 8) false)

/-- The bits of a byte list, eight to a byte. -/
def unpackBytes : List Nat → List Bool
  | [] => []
  | b :: rest => natToBits 8 b ++ unpackBytes rest

/-- Modelled from the spec: the XOR chunk of package `chunkenc` (`NewXORChunk`,
`Appender`, `Append`, `Bytes`) is not among the sources.  `xorChunkBytes l` is what
`c.Bytes()` returns once the samples `l` have been appended: the first timestamp
and value stored directly, each later sample as the delta from the previous
timestamp and the XOR of the bit pattern against the previous value, in
variable-length bit packing. -/
def xorChunkBytes (samples : List Sample) : List Nat := packBits (xorChunkBits samples)

/-- Reads `k` samples that follow the sample `prev`. -/
def decodeRest : Nat → Sample → List Bool → Option (List Sample)
  | 0, _, _ => some []
  | k + 1, prev, bs =>
    match decodeVar bs with
    | none => none
    | some (zd, bs1) =>
      match decodeVar bs1 with
      | none => none
      | some (x, bs2) =>
        match decodeRest k (prev.1 + unzigzag zd, Float64.mk (prev.2.bits ^^^ x)) bs2 with
        | none => none
        | some l => some ((prev.1 + unzigzag zd, Float64.mk (prev.2.bits ^^^ x)) :: l)

/-- Reads the samples of a chunk from its bits; bits after the last sample are
ignored. -/
def xorChunkDecodeBits (bs : List Bool) : Option (List Sample) :=
  match decodeVar bs with
  | none => none
  | some (0, _) => some []
  | some (n + 1, bs1) =>
    if bs1.length < 128 then none
    else
      match decodeRest n
          (wrapInt64 (bitsToNat (bs1.take 64)), Float64.mk (bitsToNat ((bs1.drop 64).take 64)))
          (bs1.drop 128) with
      | none => none
      | some l =>
        some ((wrapInt64 (bitsToNat (bs1.take 64)),
          Float64.mk (bitsToNat ((bs1.drop 64).take 64))) :: l)

/-- Modelled from the spec: the decoder of the XOR chunk (the iterator of package
`chunkenc`) is not among the sources.  `xorChunkDecode data` is the sequence of
samples that the bytes `data` hold, or `none` when they are no chunk. -/
def xorChunkDecode (data : List Nat) : Option (List Sample) :=
  xorChunkDecodeBits (unpackBytes data)

/-! ## Configuration, requests and the collaborators of a query -/

/-- `config.TencentCredential`. -/
structure TencentCredential where
  SecretKey : String
  SecretId : String
deriving DecidableEq, Repr

/-- `config.TencentMetric`. -/
structure TencentMetric where
  MetricsName : String
  Namespace : String
deriving DecidableEq, Repr

/-- `config.TencentConfig`.  A value of `Metrics` is a pointer and may be nil. -/
structure TencentConfig where
  Credential : TencentCredential
  Metrics : GoMap (Option TencentMetric)
  ExternalLabels : GoMap String

/-- The fields of `storepb.SeriesRequest` that `queryMonitor` reads. -/
structure SeriesRequest where
  MinTime : Int
  MaxTime : Int
  Matchers : List LabelMatcher
deriving DecidableEq, Repr

/-- The fields of `monitor.GetMonitorDataRequest` that `queryMonitor` sets. -/
structure GetMonitorDataRequest where
  Namespace : String
  MetricName : String
  Period : Nat
  StartTime : String
  EndTime : String
  Instances : List Instance
deriving DecidableEq, Repr

/-- `monitor.GetMonitorDataResponse`: the pointer `Response` may be nil; when it
is not, it holds the data points. -/
structure GetMonitorDataResponse where
  Response : Option (List DataPoint)
deriving DecidableEq, Repr

/-- `storepb.Series`. -/
structure Series where
  Labels : List Label
  Chunks : List AggrChunk
deriving DecidableEq, Repr

/-- The orders in which the `range` loops of one request visit their maps:
`visit V i m` is the map `m` as the `i`-th loop visits it. -/
structure RangeOrder where
  visit : (V : Type) → Nat → GoMap V → GoMap V
  visits : ∀ (V : Type) (i : Nat) (m : GoMap V), (visit V i m).Visits m

/-- Every loop visits a map in the order of its `entries`. -/
def RangeOrder.inOrder : RangeOrder := ⟨fun _ _ m => m, fun _ _ _ => List.Perm.refl _⟩

/-- What a store works with besides its configuration and the request.
* `sortSlice`: the `sort.Slice` in use;
* `range`: the visiting orders of the maps;
* `localOffset`: the offset of `time.Local`, in seconds east of UTC, at an instant;
* `bytes`: the encoding of the XOR chunk;
* `getMonitorData region request`: the upstream call `client.GetMonitorData(request)` of
  the client made for `region`, returning the response or the text of an error;
* `send sent series`: the sink `s.Send`, given the series handed to it before;
  it returns the text of an error, or `none`. -/
structure Env where
  sortSlice : SortSlice
  range : RangeOrder
  localOffset : Int → Int
  bytes : List Sample → List Nat
  getMonitorData : String → GetMonitorDataRequest → Except String GetMonitorDataResponse
  send : List Series → Series → Option String

/-- How a call ended: normally with a nil error, with an error, or in a panic. -/
inductive Outcome where
  | ok
  | error (msg : String)
  | panic (p : Panic)
deriving DecidableEq, Repr

/-- What one run of `queryMonitor` did: the upstream calls made (region and
request), the series handed to `Send`, and how it ended. -/
structure Run where
  calls : List (String × GetMonitorDataRequest)
  sends : List Series
  outcome : Outcome
deriving DecidableEq, Repr

/-- The loop `for _, data := range res.Response.DataPoints` of `queryMonitor`, from
its `i`-th round on, `sent` being the series handed to `Send` so far. -/
def sendDataPoints (env : Env) (config : TencentConfig) :
    Nat → List Series → List DataPoint → List Series × Outcome
  | _, sent, [] => (sent, Outcome.ok)
  | i, sent, data :: rest =>
    let lset := translateAndExtendLabels env.sortSlice data.Dimensions
      (env.range.visit String (i + 1) config.ExternalLabels)
    match chunkSamples env.bytes data with
    | Except.error p => (sent, Outcome.panic p)
    | Except.ok (_, some err) => (sent, Outcome.error err)
    | Except.ok (aggregatedChunks, none) =>
      match env.send sent (Series.mk lset aggregatedChunks) with
      | some err => (sent ++ [Series.mk lset aggregatedChunks], Outcome.error err)
      | none => sendDataPoints env config (i + 1) (sent ++ [Series.mk lset aggregatedChunks]) rest

/-- `queryMonitor`.  `q.MinTime / 1000` is Go's integer division, which truncates
toward zero (`Int.tdiv`). -/
def queryMonitor (env : Env) (config : TencentConfig) (q : SeriesRequest) : Run :=
  let labelMap := labelMatcherToMap q.Matchers
  let region := safeGetValue labelMap "region"
  let name := safeGetValue labelMap "__name__"
  if region = "" then Run.mk [] [] (Outcome.error "region missing")
  else if name = "" then Run.mk [] [] (Outcome.error "name missing")
  else
    match (config.Metrics.get? name).join with
    | none => Run.mk [] [] (Outcome.error ("metric " ++ name ++ " not support"))
    | some metricConfig =>
      let request : GetMonitorDataRequest :=
        { Namespace := metricConfig.Namespace
          Period := 60
          MetricName := metricConfig.MetricsName
          StartTime := unixFormatRFC3339 env.localOffset (Int.tdiv q.MinTime 1000)
          EndTime := unixFormatRFC3339 env.localOffset (Int.tdiv q.MaxTime 1000)
          Instances := makeMonitorInstance (env.range.visit LabelMatcher 0 labelMap) }
      match env.getMonitorData region request with
      | Except.error err => Run.mk [(region, request)] [] (Outcome.error ("get metrics failed: " ++ err))
      | Except.ok res =>
        match res.Response with
        | none => Run.mk [(region, request)] [] (Outcome.error "getMetric response nil")
        | some dataPoints =>
          let r := sendDataPoints env config 0 [] dataPoints
          Run.mk [(region, request)] r.1 r.2

/-- The request `queryMonitor` hands upstream for the metric `metricConfig`. -/
def upstreamRequest (env : Env) (q : SeriesRequest) (metricConfig : TencentMetric) :
    GetMonitorDataRequest :=
  { Namespace := metricConfig.Namespace
    Period := 60
    MetricName := metricConfig.MetricsName
    StartTime := unixFormatRFC3339 env.localOffset (Int.tdiv q.MinTime 1000)
    EndTime := unixFormatRFC3339 env.localOffset (Int.tdiv q.MaxTime 1000)
    Instances := makeMonitorInstance (env.range.visit LabelMatcher 0 (labelMatcherToMap q.Matchers)) }

/-- `storepb.LabelValuesResponse`. -/
structure LabelValuesResponse where
  Values : List String
deriving DecidableEq, Repr

/-- `LabelValues`: the response and the error, which is always nil.  `range`
gives the order in which the metric table is visited. -/
def LabelValues (range : RangeOrder) (config : TencentConfig) (label : String) :
    LabelValuesResponse × Option String :=
  let externalLset := config.ExternalLabels
  if externalLset.index label ≠ "" then (LabelValuesResponse.mk [externalLset.index label], none)
  else if label = "region" then
    (LabelValuesResponse.mk ["ap-shanghai", "ap-chengdu", "ap-beijing"], none)
  else if label = "__name__" then
    (LabelValuesResponse.mk ((range.visit (Option TencentMetric) 0 config.Metrics).entries.map
      Prod.fst), none)
  else (LabelValuesResponse.mk [], none)

/-! ## A sorting procedure meeting the contract -/

/-- Insertion sort by name as an instance of the `sort.Slice` contract. -/
def insertionSortSlice : SortSlice where
  sort := insertionSortByName
  perm := by
    have hins : ∀ (x : Label) (l : List Label), (insertByName x l).Perm (x :: l) := by
      intro x l
      induction l with
      | nil => exact List.Perm.refl _
      | cons y ys ih =>
        unfold insertByName
        split
        · exact List.Perm.refl _
        · exact ((List.Perm.cons y ih).trans (List.Perm.swap x y ys))
    intro l
    induction l with
    | nil => exact List.Perm.refl _
    | cons x xs ih => exact (hins x _).trans (List.Perm.cons x ih)
  sorted := by
    have hins : ∀ (x : Label) (l : List Label), (insertByName x l).Perm (x :: l) := by
      intro x l
      induction l with
      | nil => exact List.Perm.refl _
      | cons y ys ih =>
        unfold insertByName
        split
        · exact List.Perm.refl _
        · exact ((List.Perm.cons y ih).trans (List.Perm.swap x y ys))
    have hsorted : ∀ (x : Label) (l : List Label),
        l.Pairwise (fun a b => ¬ lessByName b a) →
        (insertByName x l).Pairwise (fun a b => ¬ lessByName b a) := by
      intro x l
      induction l with
      | nil => intro _; simp [insertByName]
      | cons y ys ih =>
        intro h
        unfold insertByName
        rw [List.pairwise_cons] at h
        split
        next hxy =>
          refine List.pairwise_cons.2 ⟨?_, List.pairwise_cons.2 h⟩
          intro b hb
          have hyx : ¬ lessByName y x := fun hyx => lt_asymm hxy hyx
          rcases List.mem_cons.1 hb with hb | hb
          · subst hb; exact hyx
          · intro hbx
            have := h.1 b hb
            unfold lessByName at *
            exact this (lt_trans hbx hxy)
        next hxy =>
          refine List.pairwise_cons.2 ⟨?_, ih h.2⟩
          intro b hb
          rcases List.mem_cons.1 ((hins x ys).subset hb) with hb | hb
          · subst hb; exact hxy
          · exact h.1 b hb
    intro l
    induction l with
    | nil => exact List.Pairwise.nil
    | cons x xs ih => exact hsorted x _ ih

/-! ## Inputs used in examples -/

/-- One dimension named `zone`. -/
def zoneDimension : List Dimension := [Dimension.mk "zone" "sh-1"]

/-- External labels holding `zone` with the empty value. -/
def emptyZoneExternal : GoMap String := ⟨[("zone", "")], by decide⟩

/-- External labels `cluster = prod`, `zone = ext`. -/
def clusterZoneExternal : GoMap String := ⟨[("zone", "ext"), ("cluster", "prod")], by decide⟩

/-- Dimensions `zone`, `app`, in that order. -/
def zoneAppDimensions : List Dimension := [Dimension.mk "zone" "sh-1", Dimension.mk "app" "db"]

/-- Two dimensions that share the name `zone`. -/
def twoZoneDimensions : List Dimension := [Dimension.mk "zone" "sh-1", Dimension.mk "zone" "sh-2"]

/-- Equality matchers `a = 1`, `b = 2`. -/
def abMatchers : List LabelMatcher :=
  [LabelMatcher.mk LabelMatcherType.EQ "a" "1", LabelMatcher.mk LabelMatcherType.EQ "b" "2"]

/-- The map of `abMatchers`, visited `b` first. -/
def visitBA : GoMap LabelMatcher :=
  ⟨[("b", LabelMatcher.mk LabelMatcherType.EQ "b" "2"),
    ("a", LabelMatcher.mk LabelMatcherType.EQ "a" "1")], by decide⟩

/-- The map of `abMatchers`, visited `a` first. -/
def visitAB : GoMap LabelMatcher :=
  ⟨[("a", LabelMatcher.mk LabelMatcherType.EQ "a" "1"),
    ("b", LabelMatcher.mk LabelMatcherType.EQ "b" "2")], by decide⟩

/-- Equality matchers `a = 1`, `a = 2`. -/
def aTwiceMatchers : List LabelMatcher :=
  [LabelMatcher.mk LabelMatcherType.EQ "a" "1", LabelMatcher.mk LabelMatcherType.EQ "a" "2"]

/-- A request's matchers: `b`, `region`, `a`, a non-equality `c`, `__name__`, `a` again. -/
def mixedMatchers : List LabelMatcher :=
  [LabelMatcher.mk LabelMatcherType.EQ "b" "2",
   LabelMatcher.mk LabelMatcherType.EQ "region" "ap-shanghai",
   LabelMatcher.mk LabelMatcherType.EQ "a" "1",
   LabelMatcher.mk LabelMatcherType.NEQ "c" "1",
   LabelMatcher.mk LabelMatcherType.EQ "__name__" "cpu_usage",
   LabelMatcher.mk LabelMatcherType.EQ "a" "3"]

/-- A configuration: metric `cpu_usage`, external label `cluster = prod`. -/
def cpuConfig : TencentConfig :=
  { Credential := TencentCredential.mk "key" "id"
    Metrics := ⟨[("cpu_usage", some (TencentMetric.mk "CPUUsage" "QCE/CVM"))], by decide⟩
    ExternalLabels := ⟨[("cluster", "prod")], by decide⟩ }

/-- A data point with two samples. -/
def twoSamples : DataPoint :=
  DataPoint.mk [Dimension.mk "instanceId" "ins-123"] [1000, 1060] [Float64.mk 10, Float64.mk 12]

/-- A data point with dimensions and no samples. -/
def noSamples : DataPoint := DataPoint.mk [Dimension.mk "instanceId" "ins-123"] [] []

/-- Collaborators for examples: the zone is `offset` seconds east of UTC, the
upstream answers every call with `dataPoints`, the sink accepts every series,
and a chunk's bytes are stood for by the low byte of each timestamp. -/
def exampleEnv (offset : Int) (dataPoints : List DataPoint) : Env :=
  { sortSlice := insertionSortSlice
    range := RangeOrder.inOrder
    localOffset := fun _ => offset
    bytes := fun l => l.map (fun s => s.1.toNat % 256)
    getMonitorData := fun _ _ => Except.ok (GetMonitorDataResponse.mk (some dataPoints))
    send := fun _ _ => none }

/-- A request with a metric name and no `region` matcher. -/
def noRegionRequest : SeriesRequest :=
  SeriesRequest.mk 0 60000 [LabelMatcher.mk LabelMatcherType.EQ "__name__" "cpu_usage",
    LabelMatcher.mk LabelMatcherType.NEQ "region" "ap-shanghai"]

/-- A request for the metric `mem_usage`, which `cpuConfig` does not hold. -/
def unknownMetricRequest : SeriesRequest :=
  SeriesRequest.mk 0 60000 [LabelMatcher.mk LabelMatcherType.EQ "region" "ap-shanghai",
    LabelMatcher.mk LabelMatcherType.EQ "__name__" "mem_usage"]

/-- A well-formed request for `cpu_usage` in `ap-shanghai`, from 0 ms to 60999 ms. -/
def cpuRequest : SeriesRequest :=
  SeriesRequest.mk 0 60999 [LabelMatcher.mk LabelMatcherType.EQ "region" "ap-shanghai",
    LabelMatcher.mk LabelMatcherType.EQ "__name__" "cpu_usage",
    LabelMatcher.mk LabelMatcherType.EQ "instanceId" "ins-123"]

/-- A configuration whose external labels hold `cluster` and `region`, both with
the empty value. -/
def emptyValuedExternalConfig : TencentConfig :=
  { Credential := TencentCredential.mk "key" "id"
    Metrics := ⟨[("cpu_usage", some (TencentMetric.mk "CPUUsage" "QCE/CVM"))], by decide⟩
    ExternalLabels := ⟨[("cluster", ""), ("region", "")], by decide⟩ }

/-- A data point with one timestamp and two values. -/
def twoValuesOneTimestamp : DataPoint :=
  DataPoint.mk [Dimension.mk "instanceId" "ins-123"] [1000] [Float64.mk 10, Float64.mk 12]

/-- A data point with two timestamps and one value. -/
def oneValueTwoTimestamps : DataPoint :=
  DataPoint.mk [Dimension.mk "instanceId" "ins-123"] [1000, 1060] [Float64.mk 10]

/-! ## Facts about Go maps -/

theorem GoMap.get?_eq_some_iff {V : Type} (m : GoMap V) (k : String) (v : V) :
    m.get? k = some v ↔ (k, v) ∈ m.entries := by
  obtain ⟨l, hl⟩ := m
  simp only [GoMap.get?]
  induction l with
  | nil => simp
  | cons e l ih =>
    obtain ⟨k', v'⟩ := e
    simp only [List.map_cons, List.nodup_cons, List.mem_map, not_exists, not_and] at hl
    by_cases hk : k' = k
    · subst hk
      simp only [List.find?_cons, decide_True, Option.map_some', Option.some.injEq,
        List.mem_cons, Prod.mk.injEq, true_and]
      constructor
      · intro h; exact Or.inl h.symm
      · rintro (h | h)
        · exact h.symm
        · exact absurd rfl (hl.1 (k', v) h)
    · have hk' : ¬ k = k' := fun h => hk h.symm
      simp only [List.find?_cons, hk, decide_False, List.mem_cons, Prod.mk.injEq, hk',
        false_and, false_or]
      exact ih hl.2

theorem GoMap.index_ne_empty {m : GoMap String} {k : String} (h : m.index k ≠ "") :
    (k, m.index k) ∈ m.entries := by
  unfold GoMap.index at h ⊢
  cases hg : m.get? k with
  | none => rw [hg] at h; exact absurd rfl h
  | some v => simpa using (m.get?_eq_some_iff k v).1 hg

theorem GoMap.contains_iff {V : Type} (m : GoMap V) (k : String) :
    m.contains k = true ↔ k ∈ m.entries.map Prod.fst := by
  unfold GoMap.contains
  rw [Option.isSome_iff_exists]
  constructor
  · rintro ⟨v, hv⟩
    exact List.mem_map.2 ⟨(k, v), (m.get?_eq_some_iff k v).1 hv, rfl⟩
  · intro h
    obtain ⟨⟨k', v⟩, hmem, hk⟩ := List.mem_map.1 h
    simp only at hk
    subst hk
    exact ⟨v, (m.get?_eq_some_iff k' v).2 hmem⟩

theorem filter_key_eq_singleton {V : Type} (l : List (String × V))
    (hl : (l.map Prod.fst).Nodup) (k : String) (v : V) (h : (k, v) ∈ l) :
    l.filter (fun e => decide (e.1 = k)) = [(k, v)] := by
  induction l with
  | nil => simp at h
  | cons e l ih =>
    simp only [List.map_cons, List.nodup_cons, List.mem_map, not_exists, not_and] at hl
    rcases List.mem_cons.1 h with h | h
    · subst h
      have : l.filter (fun e => decide (e.1 = k)) = [] := by
        rw [List.filter_eq_nil_iff]
        intro a ha
        simpa using hl.1 a ha
      simp [List.filter_cons, this]
    · have hne : ¬ e.1 = k := fun he => hl.1 (k, v) h he.symm
      simp only [List.filter_cons, hne, decide_False]
      exact ih hl.2 h

/-! ## Facts about insertion sort -/

theorem insertByName_perm (x : Label) (l : List Label) :
    (insertByName x l).Perm (x :: l) := by
  induction l with
  | nil => exact List.Perm.refl _
  | cons y ys ih =>
    unfold insertByName
    split
    · exact List.Perm.refl _
    · exact ((List.Perm.cons y ih).trans (List.Perm.swap x y ys))

theorem insertionSortByName_perm (l : List Label) : (insertionSortByName l).Perm l := by
  induction l with
  | nil => exact List.Perm.refl _
  | cons x xs ih =>
    exact (insertByName_perm x _).trans (List.Perm.cons x ih)

theorem insertByName_sorted (x : Label) (l : List Label)
    (h : l.Pairwise (fun a b => ¬ lessByName b a)) :
    (insertByName x l).Pairwise (fun a b => ¬ lessByName b a) := by
  induction l with
  | nil => simp [insertByName]
  | cons y ys ih =>
    unfold insertByName
    rw [List.pairwise_cons] at h
    split
    next hxy =>
      refine List.pairwise_cons.2 ⟨?_, List.pairwise_cons.2 h⟩
      intro b hb
      have hyx : ¬ lessByName y x := fun hyx => lt_asymm hxy hyx
      rcases List.mem_cons.1 hb with hb | hb
      · subst hb; exact hyx
      · intro hbx
        have := h.1 b hb
        unfold lessByName at *
        exact this (lt_trans hbx hxy)
    next hxy =>
      refine List.pairwise_cons.2 ⟨?_, ih h.2⟩
      intro b hb
      rcases List.mem_cons.1 ((insertByName_perm x ys).subset hb) with hb | hb
      · subst hb; exact hxy
      · exact h.1 b hb

theorem insertionSortByName_sorted (l : List Label) :
    (insertionSortByName l).Pairwise (fun a b => ¬ lessByName b a) := by
  induction l with
  | nil => exact List.Pairwise.nil
  | cons x xs ih => exact insertByName_sorted x _ ih

/-! ## The label set builder -/

theorem translateAndExtendLabels_perm (S : SortSlice) (m : List Dimension)
    (extend : GoMap String) :
    (translateAndExtendLabels S m extend).Perm
      (keptDimensions m extend ++ externalLabels extend) :=
  S.perm _

theorem translateAndExtendLabels_pairwise (S : SortSlice) (m : List Dimension)
    (extend : GoMap String) :
    (translateAndExtendLabels S m extend).Pairwise (fun a b => a.Name ≤ b.Name) := by
  have h := S.sorted
    ((m.filter (fun l => decide (extend.index l.Name = ""))).map
      (fun l => Label.mk l.Name l.Value) ++ extend.entries.map (fun kv => Label.mk kv.1 kv.2))
  exact h.imp (fun {a b} hab => not_lt.1 hab)

theorem keptDimensions_filter_name (m : List Dimension) (extend : GoMap String) (n : String)
    (hn : extend.index n ≠ "") :
    (keptDimensions m extend).filter (fun l => decide (l.Name = n)) = [] := by
  rw [List.filter_eq_nil_iff]
  intro a ha
  obtain ⟨d, hd, rfl⟩ := List.mem_map.1 ha
  have hd2 := (List.mem_filter.1 hd).2
  simp only [decide_eq_true_eq] at hd2 ⊢
  intro h
  exact hn (h ▸ hd2)

theorem externalLabels_filter_name (extend : GoMap String) (n : String)
    (hn : extend.index n ≠ "") :
    (externalLabels extend).filter (fun l => decide (l.Name = n)) =
      [Label.mk n (extend.index n)] := by
  have h := filter_key_eq_singleton extend.entries extend.nodupKeys n (extend.index n)
    (GoMap.index_ne_empty hn)
  unfold externalLabels
  rw [List.filter_map]
  have hcomp : ((fun l : Label => decide (l.Name = n)) ∘ fun kv : String × String =>
      Label.mk kv.1 kv.2) = fun e => decide (e.1 = n) := rfl
  rw [hcomp, h]
  rfl

theorem keptDimensions_names_nodup (m : List Dimension) (extend : GoMap String)
    (hm : (m.map Dimension.Name).Nodup) :
    ((keptDimensions m extend).map Label.Name).Nodup := by
  unfold keptDimensions
  rw [List.map_map]
  have hcomp : (Label.Name ∘ fun l : Dimension => Label.mk l.Name l.Value) = Dimension.Name := rfl
  rw [hcomp]
  exact (List.Sublist.map _ (List.filter_sublist _)).nodup hm

/-! ## Claims about the label set builder -/

/-- C1, as stated, fails: with the dimension `zone = sh-1` and the external label
`zone` present with the empty value, `zone` is a dimension name and a key of the
external labels, yet the result holds the upstream pair `(zone, sh-1)`, whose
value is not `E[zone]`. -/
theorem translateAndExtendLabels_empty_external_keeps_dimension :
    (∃ d ∈ zoneDimension, d.Name = "zone") ∧
    emptyZoneExternal.contains "zone" = true ∧
    ¬ (∀ l ∈ translateAndExtendLabels insertionSortSlice zoneDimension emptyZoneExternal,
        l.Name = "zone" → l.Value = emptyZoneExternal.index "zone") := by
  refine ⟨⟨Dimension.mk "zone" "sh-1", by decide, rfl⟩, by decide, ?_⟩
  intro h
  have := h (Label.mk "zone" "sh-1") (by decide) rfl
  exact absurd this (by decide)

/-- C1 (amended): for every name `n` that is the name of a dimension in `D` and
for which `E[n]` is non-empty, every pair named `n` in
`translateAndExtendLabels(D, E)` has value `E[n]`, and the pairs named `n` are
exactly the one external pair: no upstream pair named `n` is in the result. -/
theorem translateAndExtendLabels_external_wins (S : SortSlice) (D : List Dimension)
    (E : GoMap String) (n : String) (_hD : ∃ d ∈ D, d.Name = n) (hE : E.index n ≠ "") :
    (∀ l ∈ translateAndExtendLabels S D E, l.Name = n → l.Value = E.index n) ∧
    (translateAndExtendLabels S D E).filter (fun l => decide (l.Name = n)) =
      [Label.mk n (E.index n)] := by
  have hfilter : (translateAndExtendLabels S D E).filter (fun l => decide (l.Name = n)) =
      [Label.mk n (E.index n)] := by
    have hp := (translateAndExtendLabels_perm S D E).filter (fun l => decide (l.Name = n))
    rw [List.filter_append, keptDimensions_filter_name D E n hE,
      externalLabels_filter_name E n hE, List.nil_append] at hp
    exact List.perm_singleton.1 hp
  refine ⟨?_, hfilter⟩
  intro l hl hname
  have hmem : l ∈ (translateAndExtendLabels S D E).filter (fun l => decide (l.Name = n)) :=
    List.mem_filter.2 ⟨hl, by simpa using hname⟩
  rw [hfilter, List.mem_singleton] at hmem
  rw [hmem]

/-- Witness for C1 (amended): dimensions `zone`, `app`; external `zone = ext`. -/
theorem translateAndExtendLabels_external_wins_witness :
    (translateAndExtendLabels insertionSortSlice zoneAppDimensions clusterZoneExternal).filter
        (fun l => decide (l.Name = "zone")) = [Label.mk "zone" "ext"] :=
  (translateAndExtendLabels_external_wins insertionSortSlice zoneAppDimensions
    clusterZoneExternal "zone" ⟨Dimension.mk "zone" "sh-1", by decide, rfl⟩ (by decide)).2

/-- C2: for every list of dimensions `D` and every external-label map `E` (in
every visiting order), the label set `translateAndExtendLabels(D, E)` is sorted
ascending by name: `result[i].Name <= result[j].Name` for all `i < j`. -/
theorem translateAndExtendLabels_sorted (S : SortSlice) (D : List Dimension)
    (E : GoMap String) (i j : Nat) (hij : i < j)
    (hj : j < (translateAndExtendLabels S D E).length) :
    ((translateAndExtendLabels S D E).get ⟨i, lt_trans hij hj⟩).Name ≤
      ((translateAndExtendLabels S D E).get ⟨j, hj⟩).Name :=
  List.pairwise_iff_getElem.1 (translateAndExtendLabels_pairwise S D E) i j
    (lt_trans hij hj) hj hij

/-- Witness for C2: positions 0 and 2 of a three-label result. -/
theorem translateAndExtendLabels_sorted_witness :
    ((translateAndExtendLabels insertionSortSlice zoneAppDimensions clusterZoneExternal).get
        ⟨0, by decide⟩).Name ≤
      ((translateAndExtendLabels insertionSortSlice zoneAppDimensions clusterZoneExternal).get
        ⟨2, by decide⟩).Name :=
  translateAndExtendLabels_sorted insertionSortSlice zoneAppDimensions clusterZoneExternal 0 2
    (by decide) (by decide)

/-- C3, as stated, fails: two upstream dimensions with one name both reach the
result (nothing removes duplicates), and a dimension whose name is an external
key with the empty value is kept next to the external pair. -/
theorem translateAndExtendLabels_names_repeat :
    ¬ ((translateAndExtendLabels insertionSortSlice twoZoneDimensions GoMap.empty).map
        Label.Name).Nodup ∧
    ¬ ((translateAndExtendLabels insertionSortSlice zoneDimension emptyZoneExternal).map
        Label.Name).Nodup := by
  constructor <;> decide

/-- C3 (amended): when the dimensions of `D` have pairwise distinct names and no
dimension name is an external key with the empty value, the label set
`translateAndExtendLabels(D, E)` has unique names. -/
theorem translateAndExtendLabels_names_nodup (S : SortSlice) (D : List Dimension)
    (E : GoMap String) (hD : (D.map Dimension.Name).Nodup)
    (hE : ∀ d ∈ D, E.contains d.Name = true → E.index d.Name ≠ "") :
    ((translateAndExtendLabels S D E).map Label.Name).Nodup := by
  rw [((translateAndExtendLabels_perm S D E).map Label.Name).nodup_iff, List.map_append]
  refine List.Nodup.append (keptDimensions_names_nodup D E hD) ?_ ?_
  · unfold externalLabels
    rw [List.map_map]
    exact E.nodupKeys
  · intro n hk he
    obtain ⟨l, hl, rfl⟩ := List.mem_map.1 hk
    obtain ⟨d, hd, rfl⟩ := List.mem_map.1 hl
    obtain ⟨hdD, hidx⟩ := List.mem_filter.1 hd
    simp only [decide_eq_true_eq] at hidx
    refine hE d hdD ((E.contains_iff d.Name).2 ?_) hidx
    unfold externalLabels at he
    rw [List.map_map] at he
    exact he

/-- Witness for C3 (amended): dimensions `zone`, `app`; external `zone`, `cluster`. -/
theorem translateAndExtendLabels_names_nodup_witness :
    ((translateAndExtendLabels insertionSortSlice zoneAppDimensions clusterZoneExternal).map
      Label.Name).Nodup :=
  translateAndExtendLabels_names_nodup insertionSortSlice zoneAppDimensions clusterZoneExternal
    (by decide) (by decide)

/-! ## Facts about the matcher map -/

theorem find?_filter_ne {V : Type} (l : List (String × V)) (k k2 : String) (h : ¬ k2 = k) :
    (l.filter (fun e => !decide (e.1 = k))).find? (fun e => decide (e.1 = k2)) =
      l.find? (fun e => decide (e.1 = k2)) := by
  induction l with
  | nil => rfl
  | cons e l ih =>
    by_cases h1 : e.1 = k
    · have h2 : ¬ e.1 = k2 := fun h3 => h (h3 ▸ h1)
      rw [List.filter_cons, List.find?_cons]
      have h3 : ¬ k = k2 := fun x => h x.symm
      simp only [h1, h3, decide_True, decide_False, Bool.not_true, Bool.false_eq_true,
        if_false]
      exact ih
    · rw [List.filter_cons, List.find?_cons]
      simp only [h1, decide_False, Bool.not_false, if_true, List.find?_cons, ih]

theorem GoMap.get?_insert {V : Type} (m : GoMap V) (k : String) (v : V) (k2 : String) :
    (m.insert k v).get? k2 = if k2 = k then some v else m.get? k2 := by
  unfold GoMap.get? GoMap.insert
  by_cases h : k2 = k
  · subst h
    simp [List.find?_cons]
  · have h2 : ¬ k = k2 := fun h3 => h h3.symm
    simp only [List.find?_cons, h2, decide_False, h, if_false]
    rw [find?_filter_ne _ _ _ h]

theorem labelMatcherToMap_concat (ms : List LabelMatcher) (a : LabelMatcher) :
    labelMatcherToMap (ms ++ [a]) =
      if a.Type_ = LabelMatcherType.EQ then (labelMatcherToMap ms).insert a.Name a
      else labelMatcherToMap ms := by
  unfold labelMatcherToMap
  rw [List.foldl_append]
  rfl

theorem lastEqMatcher_concat (ms : List LabelMatcher) (a : LabelMatcher) (n : String) :
    lastEqMatcher (ms ++ [a]) n =
      if a.Type_ = LabelMatcherType.EQ ∧ a.Name = n then some a else lastEqMatcher ms n := by
  unfold lastEqMatcher
  rw [List.filter_append]
  by_cases h : a.Type_ = LabelMatcherType.EQ ∧ a.Name = n
  · simp [List.filter_cons, h, List.getLast?_concat]
  · simp [List.filter_cons, h]

theorem labelMatcherToMap_get? (ms : List LabelMatcher) (n : String) :
    (labelMatcherToMap ms).get? n = lastEqMatcher ms n := by
  induction ms using List.reverseRecOn with
  | nil => rfl
  | append_singleton ms a ih =>
    rw [labelMatcherToMap_concat, lastEqMatcher_concat]
    by_cases hEQ : a.Type_ = LabelMatcherType.EQ
    · rw [if_pos hEQ, GoMap.get?_insert, ih]
      by_cases hn : n = a.Name
      · subst hn; simp [hEQ]
      · have hn2 : ¬ a.Name = n := fun h => hn h.symm
        simp [hn, hn2]
    · rw [if_neg hEQ, ih]
      simp [hEQ]

theorem lastEqMatcher_some {ms : List LabelMatcher} {n : String} {a : LabelMatcher}
    (h : lastEqMatcher ms n = some a) :
    a ∈ ms ∧ a.Type_ = LabelMatcherType.EQ ∧ a.Name = n := by
  unfold lastEqMatcher at h
  obtain ⟨ys, hys⟩ := List.getLast?_eq_some_iff.1 h
  have hmem : a ∈ ms.filter (fun a => decide (a.Type_ = LabelMatcherType.EQ ∧ a.Name = n)) := by
    rw [hys]; simp
  obtain ⟨h1, h2⟩ := List.mem_filter.1 hmem
  simp only [decide_eq_true_eq] at h2
  exact ⟨h1, h2⟩

theorem lastEqMatcher_isSome (ms : List LabelMatcher) (n : String) :
    (lastEqMatcher ms n).isSome = true ↔
      ∃ a ∈ ms, a.Type_ = LabelMatcherType.EQ ∧ a.Name = n := by
  unfold lastEqMatcher
  rw [List.getLast?_isSome, ne_eq, List.filter_eq_nil_iff]
  simp only [decide_eq_true_eq, not_forall, Classical.not_not, exists_prop]

theorem labelMatcherToMap_mem_keys (ms : List LabelMatcher) (k : String) :
    k ∈ (labelMatcherToMap ms).entries.map Prod.fst ↔
      k ∈ (ms.filter (fun a => decide (a.Type_ = LabelMatcherType.EQ))).map
        LabelMatcher.Name := by
  rw [← GoMap.contains_iff]
  unfold GoMap.contains
  rw [labelMatcherToMap_get?, lastEqMatcher_isSome]
  simp only [List.mem_map, List.mem_filter, decide_eq_true_eq]
  constructor
  · rintro ⟨a, ha, hEQ, hn⟩
    exact ⟨a, ⟨ha, hEQ⟩, hn⟩
  · rintro ⟨a, ⟨ha, hEQ⟩, hn⟩
    exact ⟨a, ha, hEQ, hn⟩

theorem labelMatcherToMap_entry {ms : List LabelMatcher} {e : String × LabelMatcher}
    (he : e ∈ (labelMatcherToMap ms).entries) :
    e.2.Name = e.1 ∧ lastEqMatcher ms e.1 = some e.2 := by
  have h := ((labelMatcherToMap ms).get?_eq_some_iff e.1 e.2).2 he
  rw [labelMatcherToMap_get?] at h
  exact ⟨(lastEqMatcher_some h).2.2, h⟩

theorem filterMap_entries_eq (ms : List LabelMatcher) (l : List (String × LabelMatcher))
    (hl : ∀ e ∈ l, e.2.Name = e.1 ∧ lastEqMatcher ms e.1 = some e.2) :
    l.filterMap (fun e =>
        if e.2.Name = "region" ∨ e.2.Name = "__name__" then none
        else some (Instance.mk (makeDimension e.2.Name e.2.Value))) =
      ((l.map Prod.fst).filter (fun n => !decide (n = "region" ∨ n = "__name__"))).map
        (specFilterFor ms) := by
  induction l with
  | nil => rfl
  | cons e l ih =>
    obtain ⟨hname, hlast⟩ := hl e (List.mem_cons_self _ _)
    have ih2 := ih (fun x hx => hl x (List.mem_cons_of_mem _ hx))
    rw [List.filterMap_cons, List.map_cons, List.filter_cons, ih2]
    by_cases hr : e.2.Name = "region" ∨ e.2.Name = "__name__"
    · have hr2 : e.1 = "region" ∨ e.1 = "__name__" := hname ▸ hr
      simp [hr, hr2]
    · have hr2 : ¬ (e.1 = "region" ∨ e.1 = "__name__") := hname ▸ hr
      simp only [hr, hr2, if_false, decide_False, Bool.not_false, if_true, List.map_cons]
      congr 1
      unfold specFilterFor makeDimension
      rw [hlast, hname]
      rfl

theorem specDimensionFilters_perm (ms : List LabelMatcher) :
    (specDimensionFilters ms).Perm ((dimensionFilterNames ms).map (specFilterFor ms)) := by
  unfold specDimensionFilters
  have h := (insertionSortByName_perm ((dimensionFilterNames ms).map (fun n =>
      Label.mk n (((lastEqMatcher ms n).map LabelMatcher.Value).getD "")))).map
    (fun l => Instance.mk [Dimension.mk l.Name l.Value])
  rw [List.map_map] at h
  exact h

theorem makeMonitorInstance_visits (ms : List LabelMatcher) (visit : GoMap LabelMatcher)
    (hv : visit.Visits (labelMatcherToMap ms)) :
    (makeMonitorInstance visit).Perm ((dimensionFilterNames ms).map (specFilterFor ms)) := by
  have h1 : makeMonitorInstance visit =
      ((visit.entries.map Prod.fst).filter
        (fun n => !decide (n = "region" ∨ n = "__name__"))).map (specFilterFor ms) :=
    filterMap_entries_eq ms visit.entries
      (fun e he => labelMatcherToMap_entry (hv.subset he))
  rw [h1]
  refine List.Perm.map _ ?_
  unfold dimensionFilterNames
  refine List.Perm.filter _ ?_
  rw [List.perm_ext_iff_of_nodup visit.nodupKeys (List.nodup_dedup _)]
  intro k
  rw [List.mem_dedup, ← labelMatcherToMap_mem_keys]
  exact (hv.map Prod.fst).mem_iff

/-! ## Claims about the dimension filters -/

/-- C6, as stated, fails.  For the matchers `a = 1`, `b = 2` the map may be
visited `b` first, and then the filter list is `[b, a]`, not the list sorted by
name; visited `a` first it is `[a, b]`, so the list is not determined by the
matchers.  And reordering `a = 1`, `a = 2` changes the list, since the last
matcher of a name wins. -/
theorem makeMonitorInstance_not_sorted :
    visitBA.Visits (labelMatcherToMap abMatchers) ∧
    makeMonitorInstance visitBA ≠ specDimensionFilters abMatchers ∧
    visitAB.Visits (labelMatcherToMap abMatchers) ∧
    makeMonitorInstance visitAB = specDimensionFilters abMatchers ∧
    makeMonitorInstance (labelMatcherToMap aTwiceMatchers) ≠
      makeMonitorInstance (labelMatcherToMap aTwiceMatchers.reverse) := by
  refine ⟨?_, by decide, ?_, by decide, by decide⟩
  · exact List.Perm.refl _
  · exact List.Perm.swap _ _ _

/-- C6 (amended): for every list of matchers, in whatever order the map
`labelMatcherToMap(matchers)` is visited, the list built by
`makeMonitorInstance` is a rearrangement of the list holding one
single-dimension filter `{name, value}` for each equality matcher name other
than `region` and `__name__`, with the value of the last equality matcher of
that name. -/
theorem makeMonitorInstance_perm_spec (ms : List LabelMatcher) (visit : GoMap LabelMatcher)
    (hv : visit.Visits (labelMatcherToMap ms)) :
    (makeMonitorInstance visit).Perm (specDimensionFilters ms) :=
  (makeMonitorInstance_visits ms visit hv).trans (specDimensionFilters_perm ms).symm

/-- Witness for C6 (amended): the matchers `mixedMatchers`, the map visited in
the order of its entries. -/
theorem makeMonitorInstance_perm_spec_witness :
    (makeMonitorInstance (labelMatcherToMap mixedMatchers)).Perm
      (specDimensionFilters mixedMatchers) :=
  makeMonitorInstance_perm_spec mixedMatchers (labelMatcherToMap mixedMatchers)
    (List.Perm.refl _)

/-! ## Facts about `queryMonitor` -/

theorem safeGetValue_labelMatcherToMap (ms : List LabelMatcher) (n : String) :
    safeGetValue (labelMatcherToMap ms) n =
      ((lastEqMatcher ms n).map LabelMatcher.Value).getD "" := by
  unfold safeGetValue
  rw [labelMatcherToMap_get?]
  cases lastEqMatcher ms n <;> rfl

theorem safeGetValue_of_last {ms : List LabelMatcher} {n : String} {a : LabelMatcher}
    (h : lastEqMatcher ms n = some a) : safeGetValue (labelMatcherToMap ms) n = a.Value := by
  rw [safeGetValue_labelMatcherToMap, h]
  rfl

theorem safeGetValue_of_no_matcher {ms : List LabelMatcher} {n : String}
    (h : ∀ a ∈ ms, ¬ (a.Type_ = LabelMatcherType.EQ ∧ a.Name = n)) :
    safeGetValue (labelMatcherToMap ms) n = "" := by
  rw [safeGetValue_labelMatcherToMap]
  cases hl : lastEqMatcher ms n with
  | none => rfl
  | some a =>
    obtain ⟨h1, h2⟩ := lastEqMatcher_some hl
    exact absurd h2 (h a h1)

theorem queryMonitor_region_missing (env : Env) (config : TencentConfig) (q : SeriesRequest)
    (h : safeGetValue (labelMatcherToMap q.Matchers) "region" = "") :
    queryMonitor env config q = Run.mk [] [] (Outcome.error "region missing") := by
  unfold queryMonitor
  simp only [h, if_true]

theorem queryMonitor_name_missing (env : Env) (config : TencentConfig) (q : SeriesRequest)
    (hr : safeGetValue (labelMatcherToMap q.Matchers) "region" ≠ "")
    (h : safeGetValue (labelMatcherToMap q.Matchers) "__name__" = "") :
    queryMonitor env config q = Run.mk [] [] (Outcome.error "name missing") := by
  unfold queryMonitor
  simp only [hr, h, if_true, if_false]

theorem queryMonitor_not_support (env : Env) (config : TencentConfig) (q : SeriesRequest)
    (hr : safeGetValue (labelMatcherToMap q.Matchers) "region" ≠ "")
    (hn : safeGetValue (labelMatcherToMap q.Matchers) "__name__" ≠ "")
    (hm : (config.Metrics.get? (safeGetValue (labelMatcherToMap q.Matchers) "__name__")).join =
      none) :
    queryMonitor env config q = Run.mk [] []
      (Outcome.error
        ("metric " ++ safeGetValue (labelMatcherToMap q.Matchers) "__name__" ++ " not support")) := by
  unfold queryMonitor
  simp only [hr, hn, if_false]
  rw [hm]

/-! ## Claims about rejected queries -/

/-- C4: for every series request whose matchers hold no equality matcher named
`region`, or none named `__name__`, `queryMonitor` returns the error `region
missing` or `name missing` (the former whenever `region` is the one missing),
makes no upstream call and hands nothing to the sink. -/
theorem queryMonitor_missing_parameter (env : Env) (config : TencentConfig) (q : SeriesRequest)
    (h : (∀ a ∈ q.Matchers, ¬ (a.Type_ = LabelMatcherType.EQ ∧ a.Name = "region")) ∨
      (∀ a ∈ q.Matchers, ¬ (a.Type_ = LabelMatcherType.EQ ∧ a.Name = "__name__"))) :
    ((queryMonitor env config q).outcome = Outcome.error "region missing" ∨
      (queryMonitor env config q).outcome = Outcome.error "name missing") ∧
    ((∀ a ∈ q.Matchers, ¬ (a.Type_ = LabelMatcherType.EQ ∧ a.Name = "region")) →
      (queryMonitor env config q).outcome = Outcome.error "region missing") ∧
    (queryMonitor env config q).calls = [] ∧
    (queryMonitor env config q).sends = [] := by
  by_cases hr : safeGetValue (labelMatcherToMap q.Matchers) "region" = ""
  · rw [queryMonitor_region_missing env config q hr]
    exact ⟨Or.inl rfl, fun _ => rfl, rfl, rfl⟩
  · have hn : safeGetValue (labelMatcherToMap q.Matchers) "__name__" = "" := by
      rcases h with h | h
      · exact absurd (safeGetValue_of_no_matcher h) hr
      · exact safeGetValue_of_no_matcher h
    rw [queryMonitor_name_missing env config q hr hn]
    exact ⟨Or.inr rfl, fun h2 => absurd (safeGetValue_of_no_matcher h2) hr, rfl, rfl⟩

/-- Witness for C4: a request whose only `region` matcher is not an equality. -/
theorem queryMonitor_missing_parameter_witness :
    (queryMonitor (exampleEnv 0 [twoSamples]) cpuConfig noRegionRequest).outcome =
        Outcome.error "region missing" ∧
    (queryMonitor (exampleEnv 0 [twoSamples]) cpuConfig noRegionRequest).calls = [] ∧
    (queryMonitor (exampleEnv 0 [twoSamples]) cpuConfig noRegionRequest).sends = [] :=
  have h := queryMonitor_missing_parameter (exampleEnv 0 [twoSamples]) cpuConfig noRegionRequest
    (Or.inl (by decide))
  ⟨h.2.1 (by decide), h.2.2.1, h.2.2.2⟩

/-- C5: for every configuration and every series request whose `region` and
`__name__` equality matchers (the last of each name) have non-empty values, if
the `__name__` value is not a key of the metric table then `queryMonitor`
returns the error `metric <name> not support`, makes no upstream call and hands
nothing to the sink. -/
theorem queryMonitor_unsupported_metric (env : Env) (config : TencentConfig)
    (q : SeriesRequest) (r n : LabelMatcher)
    (hr : lastEqMatcher q.Matchers "region" = some r) (hrv : r.Value ≠ "")
    (hn : lastEqMatcher q.Matchers "__name__" = some n) (hnv : n.Value ≠ "")
    (hk : config.Metrics.contains n.Value = false) :
    (queryMonitor env config q).outcome =
        Outcome.error ("metric " ++ n.Value ++ " not support") ∧
    (queryMonitor env config q).calls = [] ∧
    (queryMonitor env config q).sends = [] := by
  have h1 : safeGetValue (labelMatcherToMap q.Matchers) "region" ≠ "" := by
    rw [safeGetValue_of_last hr]; exact hrv
  have h2 : safeGetValue (labelMatcherToMap q.Matchers) "__name__" = n.Value :=
    safeGetValue_of_last hn
  have h3 : (config.Metrics.get?
      (safeGetValue (labelMatcherToMap q.Matchers) "__name__")).join = none := by
    rw [h2]
    unfold GoMap.contains at hk
    cases hg : config.Metrics.get? n.Value with
    | none => rfl
    | some v => rw [hg] at hk; exact absurd hk (by simp)
  rw [queryMonitor_not_support env config q h1 (by rw [h2]; exact hnv) h3, h2]
  exact ⟨rfl, rfl, rfl⟩

/-- Witness for C5: `mem_usage` asked of a configuration that holds `cpu_usage`. -/
theorem queryMonitor_unsupported_metric_witness :
    (queryMonitor (exampleEnv 0 [twoSamples]) cpuConfig unknownMetricRequest).outcome =
        Outcome.error "metric mem_usage not support" ∧
    (queryMonitor (exampleEnv 0 [twoSamples]) cpuConfig unknownMetricRequest).calls = [] ∧
    (queryMonitor (exampleEnv 0 [twoSamples]) cpuConfig unknownMetricRequest).sends = [] :=
  queryMonitor_unsupported_metric (exampleEnv 0 [twoSamples]) cpuConfig unknownMetricRequest
    (LabelMatcher.mk LabelMatcherType.EQ "region" "ap-shanghai")
    (LabelMatcher.mk LabelMatcherType.EQ "__name__" "mem_usage")
    (by decide) (by decide) (by decide) (by decide) (by decide)

/-! ## Facts about accepted queries -/

theorem queryMonitor_accepted (env : Env) (config : TencentConfig) (q : SeriesRequest)
    (r n : LabelMatcher) (mc : TencentMetric)
    (hr : lastEqMatcher q.Matchers "region" = some r) (hrv : r.Value ≠ "")
    (hn : lastEqMatcher q.Matchers "__name__" = some n) (hnv : n.Value ≠ "")
    (hm : config.Metrics.get? n.Value = some (some mc)) :
    queryMonitor env config q =
      match env.getMonitorData r.Value (upstreamRequest env q mc) with
      | Except.error err =>
        Run.mk [(r.Value, upstreamRequest env q mc)] [] (Outcome.error ("get metrics failed: " ++ err))
      | Except.ok res =>
        match res.Response with
        | none =>
          Run.mk [(r.Value, upstreamRequest env q mc)] [] (Outcome.error "getMetric response nil")
        | some dataPoints =>
          Run.mk [(r.Value, upstreamRequest env q mc)]
            (sendDataPoints env config 0 [] dataPoints).1
            (sendDataPoints env config 0 [] dataPoints).2 := by
  have h1 : safeGetValue (labelMatcherToMap q.Matchers) "region" = r.Value :=
    safeGetValue_of_last hr
  have h2 : safeGetValue (labelMatcherToMap q.Matchers) "__name__" = n.Value :=
    safeGetValue_of_last hn
  unfold queryMonitor
  simp only [h1, h2, hrv, hnv, if_false, hm, Option.join]
  rfl

theorem queryMonitor_accepted_calls (env : Env) (config : TencentConfig) (q : SeriesRequest)
    (r n : LabelMatcher) (mc : TencentMetric)
    (hr : lastEqMatcher q.Matchers "region" = some r) (hrv : r.Value ≠ "")
    (hn : lastEqMatcher q.Matchers "__name__" = some n) (hnv : n.Value ≠ "")
    (hm : config.Metrics.get? n.Value = some (some mc)) :
    (queryMonitor env config q).calls = [(r.Value, upstreamRequest env q mc)] := by
  rw [queryMonitor_accepted env config q r n mc hr hrv hn hnv hm]
  split
  · rfl
  · split <;> rfl

/-! ## Claims about the time bounds of the upstream request -/

/-- C7, as stated, fails: in a process whose local zone is eight hours east of
UTC, the request from 0 ms to 60999 ms goes upstream with the bounds
`1970-01-01T08:00:00+08:00` and `1970-01-01T08:01:00+08:00`, which are not the renderings in
UTC, `1970-01-01T00:00:00Z` and `1970-01-01T00:01:00Z`, that the same request gets in a
process whose local zone is UTC. -/
theorem queryMonitor_time_bounds_follow_local_zone :
    (queryMonitor (exampleEnv 28800 []) cpuConfig cpuRequest).calls.map
        (fun c => (c.2.StartTime, c.2.EndTime)) =
      [("1970-01-01T08:00:00+08:00", "1970-01-01T08:01:00+08:00")] ∧
    (formatRFC3339 0 (Int.tdiv cpuRequest.MinTime 1000),
        formatRFC3339 0 (Int.tdiv cpuRequest.MaxTime 1000)) =
      ("1970-01-01T00:00:00Z", "1970-01-01T00:01:00Z") ∧
    (queryMonitor (exampleEnv 0 []) cpuConfig cpuRequest).calls.map
        (fun c => (c.2.StartTime, c.2.EndTime)) =
      [("1970-01-01T00:00:00Z", "1970-01-01T00:01:00Z")] := by
  refine ⟨by decide, by decide, by decide⟩

/-- C7 (amended): for every valid series request with bounds `minTimeMs` and
`maxTimeMs`, exactly one upstream request is made, and its `StartTime` and
`EndTime` are the RFC3339 renderings, in the process's local time zone, of the
instants `minTimeMs/1000` and `maxTimeMs/1000` whole seconds after the Unix
epoch (integer division truncating toward zero); they are the renderings in UTC
when the local zone has offset zero at those instants. -/
theorem queryMonitor_time_bounds (env : Env) (config : TencentConfig) (q : SeriesRequest)
    (r n : LabelMatcher) (mc : TencentMetric)
    (hr : lastEqMatcher q.Matchers "region" = some r) (hrv : r.Value ≠ "")
    (hn : lastEqMatcher q.Matchers "__name__" = some n) (hnv : n.Value ≠ "")
    (hm : config.Metrics.get? n.Value = some (some mc)) :
    (queryMonitor env config q).calls.map (fun c => (c.2.StartTime, c.2.EndTime)) =
      [(formatRFC3339 (env.localOffset (Int.tdiv q.MinTime 1000)) (Int.tdiv q.MinTime 1000),
        formatRFC3339 (env.localOffset (Int.tdiv q.MaxTime 1000)) (Int.tdiv q.MaxTime 1000))] ∧
    (env.localOffset (Int.tdiv q.MinTime 1000) = 0 →
      env.localOffset (Int.tdiv q.MaxTime 1000) = 0 →
      (queryMonitor env config q).calls.map (fun c => (c.2.StartTime, c.2.EndTime)) =
        [(formatRFC3339 0 (Int.tdiv q.MinTime 1000), formatRFC3339 0 (Int.tdiv q.MaxTime 1000))]) := by
  rw [queryMonitor_accepted_calls env config q r n mc hr hrv hn hnv hm]
  refine ⟨rfl, ?_⟩
  intro h1 h2
  simp only [List.map_cons, List.map_nil, upstreamRequest, unixFormatRFC3339, h1, h2]

/-- Witness for C7 (amended): 1 500 999 ms and 1 560 000 ms in a zone five hours
west of UTC. -/
theorem queryMonitor_time_bounds_witness :
    (queryMonitor (exampleEnv (-18000) []) cpuConfig
        (SeriesRequest.mk 1500999 1560000 cpuRequest.Matchers)).calls.map
        (fun c => (c.2.StartTime, c.2.EndTime)) =
      [(formatRFC3339 (-18000) 1500, formatRFC3339 (-18000) 1560)] :=
  (queryMonitor_time_bounds (exampleEnv (-18000) []) cpuConfig
    (SeriesRequest.mk 1500999 1560000 cpuRequest.Matchers)
    (LabelMatcher.mk LabelMatcherType.EQ "region" "ap-shanghai")
    (LabelMatcher.mk LabelMatcherType.EQ "__name__" "cpu_usage")
    (TencentMetric.mk "CPUUsage" "QCE/CVM")
    (by decide) (by decide) (by decide) (by decide) (by decide)).1

/-! ## Claims about `LabelValues` -/

/-- C8, as stated, fails: for the external-label key `cluster` whose value is the
empty string `LabelValues` returns no value at all, not the singleton of that
value; and for the key `region` with the empty value the fixed list of regions
is returned, so the external label does not take priority there. -/
theorem LabelValues_empty_external_value :
    emptyValuedExternalConfig.ExternalLabels.contains "cluster" = true ∧
    (LabelValues RangeOrder.inOrder emptyValuedExternalConfig "cluster").1.Values = [] ∧
    [emptyValuedExternalConfig.ExternalLabels.index "cluster"] = [""] ∧
    emptyValuedExternalConfig.ExternalLabels.contains "region" = true ∧
    (LabelValues RangeOrder.inOrder emptyValuedExternalConfig "region").1.Values =
      ["ap-shanghai", "ap-chengdu", "ap-beijing"] := by
  refine ⟨by decide, by decide, by decide, by decide, by decide⟩

/-- C8 (amended): for every configuration and every label name that is a key of
`ExternalLabels` with a non-empty value, `LabelValues` returns exactly the
singleton list of that value and no error, also for the names `region` and
`__name__`. -/
theorem LabelValues_external (range : RangeOrder) (config : TencentConfig) (label v : String)
    (hk : config.ExternalLabels.get? label = some v) (hv : v ≠ "") :
    LabelValues range config label = (LabelValuesResponse.mk [v], none) := by
  have hi : config.ExternalLabels.index label = v := by
    unfold GoMap.index; rw [hk]; rfl
  unfold LabelValues
  simp only [hi, ne_eq, hv, not_false_eq_true, if_true]

/-- Witness for C8 (amended): the external label `cluster = prod`. -/
theorem LabelValues_external_witness :
    LabelValues RangeOrder.inOrder cpuConfig "cluster" = (LabelValuesResponse.mk ["prod"], none) :=
  LabelValues_external RangeOrder.inOrder cpuConfig "cluster" "prod" (by decide) (by decide)

/-! ## Facts about the time format -/

theorem formatRFC3339_examples :
    formatRFC3339 0 0 = "1970-01-01T00:00:00Z" ∧
    formatRFC3339 0 (-1) = "1969-12-31T23:59:59Z" ∧
    formatRFC3339 0 951782400 = "2000-02-29T00:00:00Z" ∧
    formatRFC3339 0 1709251199 = "2024-02-29T23:59:59Z" ∧
    formatRFC3339 0 1709251200 = "2024-03-01T00:00:00Z" ∧
    formatRFC3339 0 4102444800 = "2100-01-01T00:00:00Z" ∧
    formatRFC3339 28800 1700000000 = "2023-11-15T06:13:20+08:00" ∧
    formatRFC3339 (-12600) 1700000000 = "2023-11-14T18:43:20-03:30" ∧
    formatRFC3339 0 (-62135596800) = "0001-01-01T00:00:00Z" ∧
    formatRFC3339 0 253402300800 = "10000-01-01T00:00:00Z" := by
  refine ⟨by decide, by decide, by decide, by decide, by decide, by decide, by decide,
    by decide, by decide, by decide⟩

/-! ## Facts about `chunkSamples` -/

theorem wrapInt64_of_fits (x : Int) (h1 : -2 ^ 63 ≤ x) (h2 : x < 2 ^ 63) : wrapInt64 x = x := by
  unfold wrapInt64
  omega

theorem appendSamples_eq (ts : List Int) :
    ∀ (vs : List Float64) (i : Nat) (appended : List Sample), i + vs.length ≤ ts.length →
      appendSamples ts i vs appended =
        Except.ok (appended ++ ((ts.drop i).map (fun t => mulInt64 t 1000)).zip vs) := by
  intro vs
  induction vs with
  | nil =>
    intro i appended _
    simp [appendSamples]
  | cons v vs ih =>
    intro i appended h
    have hi : i < ts.length := by
      simp only [List.length_cons] at h
      omega
    have hget : ts.get? i = some ts[i] := by
      rw [List.get?_eq_getElem?, List.getElem?_eq_getElem hi]
    unfold appendSamples
    simp only [hget]
    rw [ih (i + 1) _ (by simp only [List.length_cons] at h; omega),
      List.drop_eq_getElem_cons hi]
    simp only [List.map_cons, List.zip_cons_cons, List.append_assoc, List.singleton_append]

theorem chunkSamples_empty (bytes : List Sample → List Nat) (series : DataPoint)
    (h : series.Values = [] ∨ series.Timestamps = []) :
    chunkSamples bytes series = Except.ok ([], none) := by
  unfold chunkSamples
  have h2 : series.Values.length = 0 ∨ series.Timestamps.length = 0 := by
    rcases h with h | h
    · exact Or.inl (by rw [h]; rfl)
    · exact Or.inr (by rw [h]; rfl)
  simp only [h2, if_true]

theorem sendDataPoints_empty (env : Env) (config : TencentConfig) (data : DataPoint)
    (h : data.Values = [] ∨ data.Timestamps = []) (i : Nat) (sent : List Series)
    (rest : List DataPoint) :
    sendDataPoints env config i sent (data :: rest) =
      match env.send sent (Series.mk (translateAndExtendLabels env.sortSlice data.Dimensions
          (env.range.visit String (i + 1) config.ExternalLabels)) []) with
      | some err =>
        (sent ++ [Series.mk (translateAndExtendLabels env.sortSlice data.Dimensions
          (env.range.visit String (i + 1) config.ExternalLabels)) []], Outcome.error err)
      | none =>
        sendDataPoints env config (i + 1)
          (sent ++ [Series.mk (translateAndExtendLabels env.sortSlice data.Dimensions
            (env.range.visit String (i + 1) config.ExternalLabels)) []]) rest := by
  rw [sendDataPoints]
  simp only [chunkSamples_empty env.bytes data h]

theorem chunkSamples_nonempty (bytes : List Sample → List Nat) (series : DataPoint)
    (hlen : series.Values.length = series.Timestamps.length) (t0 tn : Int)
    (h0 : series.Timestamps.head? = some t0) (hl : series.Timestamps.getLast? = some tn) :
    chunkSamples bytes series =
      Except.ok ([AggrChunk.mk (mulInt64 t0 1000) (mulInt64 tn 1000)
        (some (Chunk.mk ChunkEncoding.XOR
          (bytes ((series.Timestamps.map (fun t => mulInt64 t 1000)).zip series.Values))))],
        none) := by
  have hne : series.Timestamps ≠ [] := by
    intro h; rw [h] at h0; simp at h0
  have hpos : 0 < series.Timestamps.length := List.length_pos.2 hne
  have hguard : ¬ (series.Values.length = 0 ∨ series.Timestamps.length = 0) := by omega
  have happ := appendSamples_eq series.Timestamps series.Values 0 [] (by omega)
  have hg0 : series.Timestamps.get? 0 = some t0 := by rw [List.get?_zero, h0]
  have hgl : series.Timestamps.get? (series.Timestamps.length - 1) = some tn := by
    rw [List.get?_eq_getElem?, ← List.getLast?_eq_getElem?, hl]
  unfold chunkSamples
  simp only [hguard, if_false, happ, List.drop_zero, List.nil_append, hg0, hgl]

/-! ## Claims about chunks -/

/-- C9: for every upstream data point with no samples (its values or its
timestamps are empty), `chunkSamples` returns no chunk and no error; when the
loop of `queryMonitor` reaches that data point it hands the sink exactly one
`Series`, whose chunk list is empty and whose labels are the built label set,
and goes on or stops as the sink answers; so a valid query whose upstream
response is that one data point hands the sink exactly that one series. -/
theorem queryMonitor_sends_series_without_chunk (env : Env) (config : TencentConfig)
    (data : DataPoint) (h : data.Values = [] ∨ data.Timestamps = []) :
    chunkSamples env.bytes data = Except.ok ([], none) ∧
    (∀ (i : Nat) (sent : List Series) (rest : List DataPoint),
      sendDataPoints env config i sent (data :: rest) =
        match env.send sent (Series.mk (translateAndExtendLabels env.sortSlice data.Dimensions
            (env.range.visit String (i + 1) config.ExternalLabels)) []) with
        | some err =>
          (sent ++ [Series.mk (translateAndExtendLabels env.sortSlice data.Dimensions
            (env.range.visit String (i + 1) config.ExternalLabels)) []], Outcome.error err)
        | none =>
          sendDataPoints env config (i + 1)
            (sent ++ [Series.mk (translateAndExtendLabels env.sortSlice data.Dimensions
              (env.range.visit String (i + 1) config.ExternalLabels)) []]) rest) ∧
    (∀ (q : SeriesRequest) (r n : LabelMatcher) (mc : TencentMetric),
      lastEqMatcher q.Matchers "region" = some r → r.Value ≠ "" →
      lastEqMatcher q.Matchers "__name__" = some n → n.Value ≠ "" →
      config.Metrics.get? n.Value = some (some mc) →
      env.getMonitorData r.Value (upstreamRequest env q mc) =
        Except.ok (GetMonitorDataResponse.mk (some [data])) →
      (queryMonitor env config q).sends =
        [Series.mk (translateAndExtendLabels env.sortSlice data.Dimensions
          (env.range.visit String 1 config.ExternalLabels)) []]) := by
  refine ⟨chunkSamples_empty env.bytes data h, sendDataPoints_empty env config data h, ?_⟩
  intro q r n mc hr hrv hn hnv hm hup
  rw [queryMonitor_accepted env config q r n mc hr hrv hn hnv hm, hup]
  simp only [sendDataPoints_empty env config data h 0 [] []]
  cases env.send [] (Series.mk (translateAndExtendLabels env.sortSlice data.Dimensions
      (env.range.visit String (0 + 1) config.ExternalLabels)) []) <;> rfl

/-- Witness for C9: the data point `noSamples` as the whole upstream response. -/
theorem queryMonitor_sends_series_without_chunk_witness :
    chunkSamples (exampleEnv 0 [noSamples]).bytes noSamples = Except.ok ([], none) ∧
    (queryMonitor (exampleEnv 0 [noSamples]) cpuConfig cpuRequest).sends =
      [Series.mk [Label.mk "cluster" "prod", Label.mk "instanceId" "ins-123"] []] :=
  have h := queryMonitor_sends_series_without_chunk (exampleEnv 0 [noSamples]) cpuConfig
    noSamples (Or.inl rfl)
  ⟨h.1, h.2.2 cpuRequest (LabelMatcher.mk LabelMatcherType.EQ "region" "ap-shanghai")
    (LabelMatcher.mk LabelMatcherType.EQ "__name__" "cpu_usage")
    (TencentMetric.mk "CPUUsage" "QCE/CVM")
    (by decide) (by decide) (by decide) (by decide) (by decide) rfl⟩

/-- C10: for every upstream data point with values and timestamps of equal
length `n >= 1`, `chunkSamples` returns exactly one chunk, of encoding XOR, and
no error; its `MinTime` is the first timestamp times 1000 and its `MaxTime` the
last timestamp times 1000 (`int64` products, the exact products whenever these
fit in an `int64`), and these are the timestamps of the first and of the last
sample appended to the chunk. -/
theorem chunkSamples_time_bounds (bytes : List Sample → List Nat) (series : DataPoint)
    (hlen : series.Values.length = series.Timestamps.length)
    (hn : 1 ≤ series.Timestamps.length) :
    ∃ (t0 tn : Int) (appended : List Sample),
      series.Timestamps.head? = some t0 ∧ series.Timestamps.getLast? = some tn ∧
      appendSamples series.Timestamps 0 series.Values [] = Except.ok appended ∧
      chunkSamples bytes series =
        Except.ok ([AggrChunk.mk (mulInt64 t0 1000) (mulInt64 tn 1000)
          (some (Chunk.mk ChunkEncoding.XOR (bytes appended)))], none) ∧
      appended.length = series.Timestamps.length ∧
      appended.head?.map Prod.fst = some (mulInt64 t0 1000) ∧
      appended.getLast?.map Prod.fst = some (mulInt64 tn 1000) ∧
      (-2 ^ 63 ≤ t0 * 1000 → t0 * 1000 < 2 ^ 63 → mulInt64 t0 1000 = t0 * 1000) ∧
      (-2 ^ 63 ≤ tn * 1000 → tn * 1000 < 2 ^ 63 → mulInt64 tn 1000 = tn * 1000) := by
  have hne : series.Timestamps ≠ [] := List.length_pos.1 (by omega)
  obtain ⟨t0, h0⟩ := Option.isSome_iff_exists.1 (List.head?_isSome.2 hne)
  obtain ⟨tn, hl⟩ := Option.isSome_iff_exists.1 (List.getLast?_isSome.2 hne)
  have hfst : ((series.Timestamps.map (fun t => mulInt64 t 1000)).zip series.Values).map
      Prod.fst = series.Timestamps.map (fun t => mulInt64 t 1000) :=
    List.map_fst_zip _ _ (by rw [List.length_map, hlen])
  refine ⟨t0, tn, (series.Timestamps.map (fun t => mulInt64 t 1000)).zip series.Values,
    h0, hl, ?_, chunkSamples_nonempty bytes series hlen t0 tn h0 hl, ?_, ?_, ?_,
    fun h1 h2 => wrapInt64_of_fits _ h1 h2, fun h1 h2 => wrapInt64_of_fits _ h1 h2⟩
  · have := appendSamples_eq series.Timestamps series.Values 0 [] (by omega)
    simpa using this
  · rw [List.length_zip, List.length_map, hlen, Nat.min_self]
  · rw [← List.head?_map, hfst, List.head?_map, h0]; rfl
  · rw [← List.getLast?_map, hfst, List.getLast?_map, hl]; rfl

/-- Witness for C10: the data point `twoSamples`, timestamps 1000 s and 1060 s,
gives one XOR chunk from 1 000 000 ms to 1 060 000 ms. -/
theorem chunkSamples_time_bounds_witness :
    ∃ appended : List Sample,
      appended.map Prod.fst = [1000000, 1060000] ∧
      chunkSamples (exampleEnv 0 []).bytes twoSamples =
        Except.ok ([AggrChunk.mk 1000000 1060000
          (some (Chunk.mk ChunkEncoding.XOR ((exampleEnv 0 []).bytes appended)))], none) := by
  obtain ⟨t0, tn, appended, h0, hl, happ, hc, _, _, _, e0, en⟩ :=
    chunkSamples_time_bounds (exampleEnv 0 []).bytes twoSamples (by decide) (by decide)
  have ht0 : t0 = 1000 := (Option.some.inj h0).symm
  have htn : tn = 1060 := (Option.some.inj hl).symm
  subst ht0 htn
  rw [e0 (by decide) (by decide), en (by decide) (by decide)] at hc
  refine ⟨appended, ?_, hc⟩
  have happ2 : appendSamples twoSamples.Timestamps 0 twoSamples.Values [] =
      Except.ok [(1000000, Float64.mk 10), (1060000, Float64.mk 12)] := rfl
  rw [happ2] at happ
  rw [← Except.ok.inj happ]
  rfl

/-! ## Facts about the index accesses of `chunkSamples` -/

theorem appendSamples_out_of_range (ts : List Int) :
    ∀ (vs : List Float64) (i : Nat) (appended : List Sample), i ≤ ts.length →
      ts.length < i + vs.length →
      appendSamples ts i vs appended =
        Except.error (Panic.indexOutOfRange ts.length ts.length) := by
  intro vs
  induction vs with
  | nil =>
    intro i appended h1 h2
    simp only [List.length_nil] at h2
    omega
  | cons v vs ih =>
    intro i appended h1 h2
    simp only [List.length_cons] at h2
    unfold appendSamples
    by_cases hi : i < ts.length
    · have hget : ts.get? i = some ts[i] := by
        rw [List.get?_eq_getElem?, List.getElem?_eq_getElem hi]
      simp only [hget]
      exact ih (i + 1) _ (by omega) (by omega)
    · have hi2 : i = ts.length := by omega
      subst hi2
      have hget : ts.get? ts.length = none := by
        rw [List.get?_eq_getElem?, List.getElem?_eq_none (by omega)]
      simp only [hget]

theorem chunkSamples_out_of_range (bytes : List Sample → List Nat) (series : DataPoint)
    (h1 : 1 ≤ series.Timestamps.length)
    (h2 : series.Timestamps.length < series.Values.length) :
    chunkSamples bytes series =
      Except.error (Panic.indexOutOfRange series.Timestamps.length series.Timestamps.length) := by
  have hguard : ¬ (series.Values.length = 0 ∨ series.Timestamps.length = 0) := by omega
  unfold chunkSamples
  simp only [hguard, if_false,
    appendSamples_out_of_range series.Timestamps series.Values 0 [] (by omega) (by omega)]

theorem chunkSamples_in_range (bytes : List Sample → List Nat) (series : DataPoint)
    (h1 : 1 ≤ series.Timestamps.length)
    (h2 : series.Values.length ≤ series.Timestamps.length) :
    ∃ r, chunkSamples bytes series = Except.ok r := by
  by_cases hv : series.Values.length = 0
  · exact ⟨([], none), chunkSamples_empty bytes series (Or.inl (List.length_eq_zero.1 hv))⟩
  · have hne : series.Timestamps ≠ [] := List.length_pos.1 (by omega)
    obtain ⟨t0, h0⟩ := Option.isSome_iff_exists.1 (List.head?_isSome.2 hne)
    obtain ⟨tn, hl⟩ := Option.isSome_iff_exists.1 (List.getLast?_isSome.2 hne)
    have hguard : ¬ (series.Values.length = 0 ∨ series.Timestamps.length = 0) := by omega
    have happ := appendSamples_eq series.Timestamps series.Values 0 [] (by omega)
    have hg0 : series.Timestamps.get? 0 = some t0 := by rw [List.get?_zero, h0]
    have hgl : series.Timestamps.get? (series.Timestamps.length - 1) = some tn := by
      rw [List.get?_eq_getElem?, ← List.getLast?_eq_getElem?, hl]
    refine ⟨([AggrChunk.mk (mulInt64 t0 1000) (mulInt64 tn 1000)
      (some (Chunk.mk ChunkEncoding.XOR
        (bytes ((series.Timestamps.map (fun t => mulInt64 t 1000)).zip series.Values))))],
      none), ?_⟩
    unfold chunkSamples
    simp only [hguard, if_false, happ, List.drop_zero, List.nil_append, hg0, hgl]

/-! ## Claims about the index accesses of `chunkSamples` -/

/-- C12: `chunkSamples` indexes `Timestamps` by the index of each element of
`Values`.  For every data point with `1 <= len(Timestamps)`: when
`len(Values) <= len(Timestamps)` every index access succeeds, the `i`-th value
being appended with the `i`-th timestamp, and the call returns; when
`len(Values) > len(Timestamps)` the access `Timestamps[len(Timestamps)]` is out of
range and the call ends in that panic instead of returning a chunk. -/
theorem chunkSamples_index_by_values (bytes : List Sample → List Nat) (series : DataPoint)
    (h1 : 1 ≤ series.Timestamps.length) :
    (series.Values.length ≤ series.Timestamps.length →
      appendSamples series.Timestamps 0 series.Values [] =
        Except.ok ((series.Timestamps.map (fun t => mulInt64 t 1000)).zip series.Values) ∧
      ∃ r, chunkSamples bytes series = Except.ok r) ∧
    (series.Timestamps.length < series.Values.length →
      series.Timestamps.get? series.Timestamps.length = none ∧
      appendSamples series.Timestamps 0 series.Values [] =
        Except.error (Panic.indexOutOfRange series.Timestamps.length series.Timestamps.length) ∧
      chunkSamples bytes series =
        Except.error
          (Panic.indexOutOfRange series.Timestamps.length series.Timestamps.length)) := by
  constructor
  · intro h2
    refine ⟨?_, chunkSamples_in_range bytes series h1 h2⟩
    have := appendSamples_eq series.Timestamps series.Values 0 [] (by omega)
    simpa using this
  · intro h2
    refine ⟨?_, appendSamples_out_of_range series.Timestamps series.Values 0 [] (by omega)
      (by omega), chunkSamples_out_of_range bytes series h1 h2⟩
    rw [List.get?_eq_getElem?, List.getElem?_eq_none (by omega)]

/-- Witness for C12: two timestamps with one value returns; one timestamp with
two values panics at index 1. -/
theorem chunkSamples_index_by_values_witness :
    (∃ r, chunkSamples (exampleEnv 0 []).bytes oneValueTwoTimestamps = Except.ok r) ∧
    chunkSamples (exampleEnv 0 []).bytes twoValuesOneTimestamp =
      Except.error (Panic.indexOutOfRange 1 1) :=
  ⟨((chunkSamples_index_by_values (exampleEnv 0 []).bytes oneValueTwoTimestamps
      (by decide)).1 (by decide)).2,
   ((chunkSamples_index_by_values (exampleEnv 0 []).bytes twoValuesOneTimestamp
      (by decide)).2 (by decide)).2.2⟩

/-! ## Facts about bit lists -/

theorem natToBits_length (w n : Nat) : (natToBits w n).length = w := by
  induction w generalizing n with
  | zero => rfl
  | succ w ih => simp [natToBits, ih]

theorem bitsToNat_concat (bs : List Bool) (b : Bool) :
    bitsToNat (bs ++ [b]) = 2 * bitsToNat bs + (if b then 1 else 0) := by
  unfold bitsToNat
  rw [List.foldl_append]
  rfl

theorem bitsToNat_natToBits (w n : Nat) (h : n < 2 ^ w) : bitsToNat (natToBits w n) = n := by
  induction w generalizing n with
  | zero =>
    have : n = 0 := by simpa using h
    subst this
    rfl
  | succ w ih =>
    have h2 : n / 2 < 2 ^ w := by
      rw [Nat.pow_succ] at h
      omega
    rw [natToBits, bitsToNat_concat, ih _ h2]
    by_cases hb : n % 2 = 1
    · simp only [hb, decide_True, if_true]; omega
    · simp only [hb, decide_False, Bool.false_eq_true, if_false]; omega

theorem natToBits_bitsToNat (bs : List Bool) : natToBits bs.length (bitsToNat bs) = bs := by
  induction bs using List.reverseRecOn with
  | nil => rfl
  | append_singleton bs b ih =>
    rw [List.length_append, List.length_singleton, natToBits, bitsToNat_concat]
    cases b
    · have h1 : (2 * bitsToNat bs + (if false = true then 1 else 0)) / 2 = bitsToNat bs := by
        simp
      have h2 : ¬ (2 * bitsToNat bs + (if false = true then 1 else 0)) % 2 = 1 := by
        simp
      rw [h1, ih]
      simp only [h2, decide_False]
    · have h1 : (2 * bitsToNat bs + 1) / 2 = bitsToNat bs := by omega
      have h2 : (2 * bitsToNat bs + 1) % 2 = 1 := by omega
      simp only [if_true, h1, h2, ih, decide_True]

theorem lt_two_pow_bitLengthAux (fuel : Nat) :
    ∀ n : Nat, n ≤ fuel → n < 2 ^ bitLengthAux fuel n := by
  induction fuel with
  | zero =>
    intro n h
    have : n = 0 := by omega
    subst this
    simp [bitLengthAux]
  | succ fuel ih =>
    intro n h
    unfold bitLengthAux
    by_cases hn : n = 0
    · simp [hn]
    · simp only [hn, if_false]
      have := ih (n / 2) (by omega)
      rw [Nat.pow_succ]
      omega

theorem lt_two_pow_bitLength (n : Nat) : n < 2 ^ bitLength n :=
  lt_two_pow_bitLengthAux n n (Nat.le_refl n)

theorem readUnary_replicate (k : Nat) (rest : List Bool) :
    readUnary (List.replicate k true ++ false :: rest) = some (k, rest) := by
  induction k with
  | zero => rfl
  | succ k ih =>
    rw [List.replicate_succ, List.cons_append, readUnary, ih]

theorem decodeVar_encodeVar (n : Nat) (rest : List Bool) :
    decodeVar (encodeVar n ++ rest) = some (n, rest) := by
  unfold decodeVar encodeVar
  rw [List.append_assoc, List.cons_append, readUnary_replicate]
  have hlen : (natToBits (bitLength n) n).length = bitLength n := natToBits_length _ _
  have hnot : ¬ (natToBits (bitLength n) n ++ rest).length < bitLength n := by
    rw [List.length_append, hlen]; omega
  simp only [hnot, if_false]
  rw [List.take_left' hlen, List.drop_left' hlen,
    bitsToNat_natToBits _ _ (lt_two_pow_bitLength n)]

theorem unzigzag_zigzag (z : Int) : unzigzag (zigzag z) = z := by
  unfold unzigzag zigzag
  split_ifs <;> omega

/-! ## Facts about the XOR chunk encoding -/

theorem encodeVar_examples :
    encodeVar 0 = [false] ∧
    encodeVar 1 = [true, false, true] ∧
    encodeVar 5 = [true, true, true, false, true, false, true] ∧
    zigzag 0 = 0 ∧ zigzag (-1) = 1 ∧ zigzag 1 = 2 ∧ zigzag 60000 = 120000 := by
  refine ⟨by decide, by decide, by decide, by decide, by decide, by decide, by decide⟩

theorem decodeRest_encodeRest (l : List Sample) :
    ∀ (prev : Sample) (tail : List Bool),
      decodeRest l.length prev (encodeRest prev l ++ tail) = some l := by
  induction l with
  | nil => intro prev tail; rfl
  | cons cur rest ih =>
    intro prev tail
    have hcur : ((prev.1 + unzigzag (zigzag (cur.1 - prev.1)),
        Float64.mk (prev.2.bits ^^^ (cur.2.bits ^^^ prev.2.bits))) : Sample) = cur := by
      rw [unzigzag_zigzag, Nat.xor_comm cur.2.bits prev.2.bits, Nat.xor_cancel_left]
      have h1 : prev.1 + (cur.1 - prev.1) = cur.1 := by omega
      rw [h1]
    rw [List.length_cons, encodeRest, decodeRest, List.append_assoc, List.append_assoc,
      decodeVar_encodeVar]
    simp only
    rw [decodeVar_encodeVar]
    simp only
    rw [hcur, ih cur tail]

theorem unpackBytes_packBytes (k : Nat) :
    ∀ bs : List Bool, bs.length = 8 * k → unpackBytes (packBytes k bs) = bs := by
  induction k with
  | zero =>
    intro bs h
    have : bs = [] := List.length_eq_zero.1 (by omega)
    subst this
    rfl
  | succ k ih =>
    intro bs h
    have htake : (bs.take 8).length = 8 := by
      rw [List.length_take]; omega
    have hdrop : (bs.drop 8).length = 8 * k := by
      rw [List.length_drop]; omega
    have h8 : natToBits 8 (bitsToNat (bs.take 8)) = bs.take 8 := by
      have := natToBits_bitsToNat (bs.take 8)
      rw [htake] at this
      exact this
    rw [packBytes, unpackBytes, h8, ih _ hdrop, List.take_append_drop]

theorem unpackBytes_packBits (bs : List Bool) :
    unpackBytes (packBits bs) = bs ++ List.replicate ((8 - bs.length % 8) % 8) false := by
  unfold packBits
  apply unpackBytes_packBytes
  rw [List.length_append, List.length_replicate]
  omega

theorem wrapInt64_toNat_emod (t : Int) (h1 : -2 ^ 63 ≤ t) (h2 : t < 2 ^ 63) :
    wrapInt64 (((t % 2 ^ 64).toNat : Nat) : Int) = t := by
  unfold wrapInt64
  omega

theorem toNat_emod_lt (t : Int) : (t % 2 ^ 64).toNat < 2 ^ 64 := by
  omega

theorem wrapInt64_range (x : Int) : -2 ^ 63 ≤ wrapInt64 x ∧ wrapInt64 x < 2 ^ 63 := by
  unfold wrapInt64
  omega

theorem xorChunkDecodeBits_xorChunkBits (l : List Sample) (tail : List Bool)
    (ht : ∀ s ∈ l, -2 ^ 63 ≤ s.1 ∧ s.1 < 2 ^ 63) (hv : ∀ s ∈ l, s.2.bits < 2 ^ 64) :
    xorChunkDecodeBits (xorChunkBits l ++ tail) = some l := by
  cases l with
  | nil =>
    unfold xorChunkDecodeBits xorChunkBits
    rw [decodeVar_encodeVar]
  | cons first rest =>
    have hA : (natToBits 64 (first.1 % 2 ^ 64).toNat).length = 64 := natToBits_length _ _
    have hB : (natToBits 64 first.2.bits).length = 64 := natToBits_length _ _
    have hAB : (natToBits 64 (first.1 % 2 ^ 64).toNat ++ natToBits 64 first.2.bits).length =
        128 := by rw [List.length_append, hA, hB]
    obtain ⟨ht1, ht2⟩ := ht first (List.mem_cons_self _ _)
    have hv1 := hv first (List.mem_cons_self _ _)
    have hfirst : ((wrapInt64 (bitsToNat (natToBits 64 (first.1 % 2 ^ 64).toNat)),
        Float64.mk (bitsToNat (natToBits 64 first.2.bits))) : Sample) = first := by
      rw [bitsToNat_natToBits _ _ (toNat_emod_lt first.1), bitsToNat_natToBits _ _ hv1,
        wrapInt64_toNat_emod first.1 ht1 ht2]
    have hshape : xorChunkBits (first :: rest) ++ tail =
        encodeVar (rest.length + 1) ++
          ((natToBits 64 (first.1 % 2 ^ 64).toNat ++ natToBits 64 first.2.bits) ++
            (encodeRest first rest ++ tail)) := by
      simp only [xorChunkBits, List.append_assoc]
    rw [hshape]
    unfold xorChunkDecodeBits
    rw [decodeVar_encodeVar]
    have hlen : ¬ ((natToBits 64 (first.1 % 2 ^ 64).toNat ++ natToBits 64 first.2.bits) ++
        (encodeRest first rest ++ tail)).length < 128 := by
      rw [List.length_append, hAB]; omega
    have htake : (((natToBits 64 (first.1 % 2 ^ 64).toNat ++ natToBits 64 first.2.bits) ++
        (encodeRest first rest ++ tail))).take 64 = natToBits 64 (first.1 % 2 ^ 64).toNat := by
      rw [List.append_assoc, List.take_left' hA]
    have hdrop64 : (((natToBits 64 (first.1 % 2 ^ 64).toNat ++ natToBits 64 first.2.bits) ++
        (encodeRest first rest ++ tail))).drop 64 =
          natToBits 64 first.2.bits ++ (encodeRest first rest ++ tail) := by
      rw [List.append_assoc, List.drop_left' hA]
    have hdrop : (((natToBits 64 (first.1 % 2 ^ 64).toNat ++ natToBits 64 first.2.bits) ++
        (encodeRest first rest ++ tail))).drop 128 = encodeRest first rest ++ tail :=
      List.drop_left' hAB
    simp only [hlen, if_false, htake, hdrop64, hdrop, List.take_left' hB, hfirst,
      decodeRest_encodeRest rest first tail]

theorem xorChunkDecode_xorChunkBytes (l : List Sample)
    (ht : ∀ s ∈ l, -2 ^ 63 ≤ s.1 ∧ s.1 < 2 ^ 63) (hv : ∀ s ∈ l, s.2.bits < 2 ^ 64) :
    xorChunkDecode (xorChunkBytes l) = some l := by
  unfold xorChunkDecode xorChunkBytes
  rw [unpackBytes_packBits]
  exact xorChunkDecodeBits_xorChunkBits l _ ht hv

/-! ## Claims about the round trip of a chunk -/

/-- C11: for every data point with a non-empty sequence of samples (values and
timestamps of equal length `n >= 1`, the values being `float64` bit patterns),
`chunkSamples` returns one XOR chunk, and decoding its bytes yields exactly the
appended sequence of (timestamp in milliseconds, value) pairs, in the original
order and with every value bit-identical.  This holds in particular when the
timestamps are strictly increasing; the encoding does not depend on it. -/
theorem chunkSamples_round_trip (series : DataPoint)
    (hlen : series.Values.length = series.Timestamps.length)
    (hn : 1 ≤ series.Timestamps.length)
    (hv : ∀ v ∈ series.Values, v.bits < 2 ^ 64) :
    ∃ (minTime maxTime : Int) (data : List Nat),
      chunkSamples xorChunkBytes series =
        Except.ok ([AggrChunk.mk minTime maxTime
          (some (Chunk.mk ChunkEncoding.XOR data))], none) ∧
      xorChunkDecode data =
        some ((series.Timestamps.map (fun t => mulInt64 t 1000)).zip series.Values) := by
  have hne : series.Timestamps ≠ [] := List.length_pos.1 (by omega)
  obtain ⟨t0, h0⟩ := Option.isSome_iff_exists.1 (List.head?_isSome.2 hne)
  obtain ⟨tn, hl⟩ := Option.isSome_iff_exists.1 (List.getLast?_isSome.2 hne)
  refine ⟨mulInt64 t0 1000, mulInt64 tn 1000, _,
    chunkSamples_nonempty xorChunkBytes series hlen t0 tn h0 hl, ?_⟩
  apply xorChunkDecode_xorChunkBytes
  · intro s hs
    obtain ⟨t, _, ht⟩ := List.mem_map.1 (List.of_mem_zip hs).1
    rw [← ht]
    exact wrapInt64_range _
  · intro s hs
    exact hv s.2 (List.of_mem_zip hs).2

/-- Witness for C11: the data point `twoSamples`; its chunk decodes to the two
samples at 1 000 000 ms and 1 060 000 ms. -/
theorem chunkSamples_round_trip_witness :
    ∃ (minTime maxTime : Int) (data : List Nat),
      chunkSamples xorChunkBytes twoSamples =
        Except.ok ([AggrChunk.mk minTime maxTime
          (some (Chunk.mk ChunkEncoding.XOR data))], none) ∧
      xorChunkDecode data = some [(1000000, Float64.mk 10), (1060000, Float64.mk 12)] :=
  chunkSamples_round_trip twoSamples (by decide) (by decide) (by decide)

end TencentStore
